import Mathlib

/-!
Verification of the pdf-chatbot-backend repository.

The development shallowly embeds the two request handlers of the Express
server (the model-selectable `POST /chat` orchestrator and the legacy
`GET /chat` endpoint), the request validation, the prompt assembly, the
BullMQ ingestion worker, and (modelled from the spec, since the langchain
splitter is an external library) the document splitter.

JavaScript's single-threaded event loop is modelled faithfully: the handler
runs in synchronous segments separated by `await` points, and external
events (client disconnect, the request timer firing) are only observed at
those await points.  Writing to a response after `res.end()` puts no bytes
on the response stream, so each write records the `ended` and
`disconnected` flags that held at the moment of the call; the events
actually serialized onto the response are the writes made before `end`.
-/

/-- A JSON value as delivered by `express.json()`, with `undef` for an
absent field (JavaScript `undefined`), used to model destructuring
defaults. -/
inductive JVal where
  | undef
  | jnull
  | jbool (b : Bool)
  | jnum (n : Int)
  | jstr (s : String)
  | jarr (elems : List JVal)
  | jobj (fields : List (String × JVal))

/-- JavaScript truthiness for the values of `JVal` (NaN is not modelled;
numbers are integers). -/
def jtruthy : JVal → Bool
  | .undef => false
  | .jnull => false
  | .jbool b => b
  | .jnum n => n != 0
  | .jstr s => s != ""
  | .jarr _ => true
  | .jobj _ => true

/-- Models `typeof v === 'string'`. -/
def jisString : JVal → Bool
  | .jstr _ => true
  | _ => false

/-- Models `Array.isArray(v)`. -/
def jisArray : JVal → Bool
  | .jarr _ => true
  | _ => false

/-- The string payload of a `JVal`; only ever used after `jisString`. -/
def jstrVal : JVal → String
  | .jstr s => s
  | _ => ""

/-- The element list of a `JVal`; only ever used after `jisArray`. -/
def jarrVal : JVal → List JVal
  | .jarr l => l
  | _ => []

/-- Field access on a parsed request body: absent keys read as
`undefined`. -/
def jgetD (body : List (String × JVal)) (k : String) : JVal :=
  (body.lookup k).getD JVal.undef

/-- One entry of the `AVAILABLE_MODELS` table of `POST /chat`. -/
structure ModelCfg where
  name : String
  provider : String
  cost : String
  description : String
deriving DecidableEq, Repr

/-- The static model allow-list, copied from the source. -/
def AVAILABLE_MODELS : List (String × ModelCfg) :=
  [ ("gpt-4o", ⟨"GPT-4o", "openai", "paid", "Most capable model"⟩),
    ("deepseek/deepseek-r1-0528:free",
      ⟨"DeepSeek R1", "deepseek", "free", "DeepSeek R1 Reasoning Model"⟩),
    ("anthropic/claude-3.5-sonnet",
      ⟨"Claude 3.5 Sonnet", "anthropic", "paid", "Fast and capable"⟩),
    ("meta-llama/llama-3.1-8b-instruct:free",
      ⟨"Llama 3.1 8B", "meta", "free", "Llama model"⟩) ]

/-- `DEFAULT_MODEL` from the source. -/
def DEFAULT_MODEL : String := "deepseek/deepseek-r1-0528:free"

/-- `CHAT_TIMEOUT_MS`: the environment override if present, else 60000. -/
def CHAT_TIMEOUT_MS (envOverride : Option Nat) : Nat :=
  envOverride.getD 60000

/-- JavaScript `String.prototype.trim()`: strip leading and trailing
whitespace (modelled over the character list with `Char.isWhitespace`;
`String.trim` itself is not used because its implementation is not
kernel-reducible). -/
def jsTrim (s : String) : String :=
  ⟨((s.data.dropWhile Char.isWhitespace).reverse.dropWhile Char.isWhitespace).reverse⟩

/-- JavaScript `str.substring(0, n)`: the first `n` characters. -/
def jsTake (s : String) (n : Nat) : String :=
  ⟨s.data.take n⟩

/-- The property names that every plain JavaScript object inherits from
`Object.prototype`.  `AVAILABLE_MODELS` is an object literal, so a
property read `AVAILABLE_MODELS[key]` that misses every own key still
finds these inherited members, all of which are truthy (methods, plus
the `__proto__` accessor yielding the prototype object). -/
def OBJECT_PROTOTYPE_KEYS : List String :=
  ["constructor", "hasOwnProperty", "isPrototypeOf", "propertyIsEnumerable",
   "toLocaleString", "toString", "valueOf",
   "__defineGetter__", "__defineSetter__", "__lookupGetter__", "__lookupSetter__",
   "__proto__"]

mutual

/-- JavaScript ToPropertyKey/ToString of a JSON-derived value used as an
object index: a string indexes directly, `null` and booleans and numbers
stringify, a plain (JSON-derived) object stringifies to
`[object Object]`, and an array joins its elements with `,` (`null` and
`undefined` elements becoming empty strings, nested arrays joining
recursively). -/
def jsKeyString : JVal → String
  | .undef => "undefined"
  | .jnull => "null"
  | .jbool true => "true"
  | .jbool false => "false"
  | .jnum n => toString n
  | .jstr s => s
  | .jobj _ => "[object Object]"
  | .jarr l => String.intercalate "," (jsKeyElems l)

/-- The element strings of `Array.prototype.join`. -/
def jsKeyElems : List JVal → List String
  | [] => []
  | .undef :: vs => "" :: jsKeyElems vs
  | .jnull :: vs => "" :: jsKeyElems vs
  | v :: vs => jsKeyString v :: jsKeyElems vs

end

/-- The property key the `model` field value indexes `AVAILABLE_MODELS`
with; for the common string case, the string itself. -/
def modelKey : JVal → String
  | .jstr s => s
  | v => jsKeyString v

/-- The input validation of `POST /chat`, translated check by check from
the source.  On success it returns the raw message string, the history
elements and the model's property key (equal to the model string itself
whenever the field is a string, as threaded through the rest of the
handler).  The model check is the source's `!AVAILABLE_MODELS[model]`: a
JavaScript property read that coerces the key and falls through to the
(truthy) inherited members of `Object.prototype` when every own key
misses, so identifiers such as `constructor` or `toString` pass it. -/
def postChatValidate (body : List (String × JVal)) :
    Except String (String × List JVal × String) :=
  let message := jgetD body ("message")
  let conversationHistory :=
    match jgetD body ("conversationHistory") with
    | .undef => JVal.jarr []
    | v => v
  let model :=
    match jgetD body ("model") with
    | .undef => JVal.jstr DEFAULT_MODEL
    | v => v
  if !(jtruthy message) || !(jisString message)
      || (jsTrim (jstrVal message)).length == 0 then
    .error ("Message is required and must be a non-empty string")
  else if (jstrVal message).length > 4000 then
    .error ("Message too long. Maximum 4000 characters allowed.")
  else if !(jisArray conversationHistory)
      || (jarrVal conversationHistory).length > 20 then
    .error ("Invalid conversation history. Maximum 20 messages allowed.")
  else if (AVAILABLE_MODELS.lookup (modelKey model)).isSome
      || OBJECT_PROTOTYPE_KEYS.contains (modelKey model) then
    .ok (jstrVal message, jarrVal conversationHistory, modelKey model)
  else
    .error ("Invalid model selection")

/-- The rejection condition exactly as the original claim states it: message
absent, not a string, or blank after trimming; or message longer than
4000 characters; or conversationHistory not an array or longer than 20;
or the model identifier not in the static allow-list (absent fields fall
back to their defaults). -/
def claimRejects (body : List (String × JVal)) : Bool :=
  (match jgetD body ("message") with
   | .jstr s => jsTrim s == ""
   | _ => true)
  || (match jgetD body ("message") with
      | .jstr s => s.length > 4000
      | _ => false)
  || (match jgetD body ("conversationHistory") with
      | .undef => false
      | .jarr l => l.length > 20
      | _ => true)
  || (match jgetD body ("model") with
      | .undef => false
      | .jstr s => !((AVAILABLE_MODELS.map Prod.fst).contains s)
      | _ => true)

/-- The rejection condition as the amended claim states it: as before
for the message and the history, but a model value is rejected exactly
when its property key is neither an own key of the allow-list nor an
inherited `Object.prototype` member. -/
def claimRejectsAmended (body : List (String × JVal)) : Bool :=
  (match jgetD body ("message") with
   | .jstr s => jsTrim s == ""
   | _ => true)
  || (match jgetD body ("message") with
      | .jstr s => s.length > 4000
      | _ => false)
  || (match jgetD body ("conversationHistory") with
      | .undef => false
      | .jarr l => l.length > 20
      | _ => true)
  || (match jgetD body ("model") with
      | .undef => false
      | v => !((AVAILABLE_MODELS.map Prod.fst).contains (modelKey v)
               || OBJECT_PROTOTYPE_KEYS.contains (modelKey v)))

/-- The events of the SSE protocol (`data: <JSON>\n\n` frames), by their
`type` tag; `doneNoMeta` is the payload-less `done` of the legacy GET
endpoint. -/
inductive ChatEv where
  | docs (documents : List String)
  | modelInfo (model : String)
  | stream (content : String)
  | done (documentsUsed responseLength : Nat)
  | doneNoMeta
  | error (errMsg : String)
deriving DecidableEq, Repr

def isStreamEv : ChatEv → Bool
  | .stream _ => true
  | _ => false

def isDocsEv : ChatEv → Bool
  | .docs _ => true
  | _ => false

def isModelInfoEv : ChatEv → Bool
  | .modelInfo _ => true
  | _ => false

def isTerminalEv : ChatEv → Bool
  | .done _ _ => true
  | .doneNoMeta => true
  | .error _ => true
  | _ => false

/-- One `res.write` call, together with the response flags that held at
the moment of the call: whether `res.end()` had already run and whether
the client-disconnect callback had already fired. -/
structure WriteRec where
  ev : ChatEv
  endedAtWrite : Bool
  disconnectedAtWrite : Bool
deriving DecidableEq, Repr

/-- An observable action of a handler: a `res.write` call, or the
completion call handed to the LLM client. -/
inductive ChatAct where
  | write (rec : WriteRec)
  | llmCall (model : String) (messages : List JVal)

/-- Per-request handler state: the actions so far and the mutable flags
of the source (`res` ended, `clientDisconnected`, whether the timer has
already fired).  Console logging (`console.log` / `console.error`) puts
nothing on the response and is not modelled for the chat handlers. -/
structure ChatSt where
  acts : List ChatAct := []
  ended : Bool := false
  disconnected : Bool := false
  timedOut : Bool := false

def resWrite (st : ChatSt) (e : ChatEv) : ChatSt :=
  { st with acts := st.acts ++ [.write ⟨e, st.ended, st.disconnected⟩] }

def resEnd (st : ChatSt) : ChatSt :=
  { st with ended := true }

def llmCallAct (st : ChatSt) (model : String) (messages : List JVal) : ChatSt :=
  { st with acts := st.acts ++ [.llmCall model messages] }

/-- Error messages fixed by the source. -/
def timeoutMessage : String := "Request timeout"

def genericErrorMessage : String :=
  "An error occurred while processing your request. Please try again."

/-- External happenings a suspended handler can observe at an await
point: the transport closing, or the request timer firing. -/
inductive ExtEv where
  | close
  | timerFire
deriving DecidableEq, Repr

/-- Effect of one external event on the handler state.  `timerArmed` is
false on the legacy GET route, which sets no timer.  The timer callback
is the source's: it fires at most once and, when the client is still
connected, writes a timeout `error` event and ends the response. -/
def extStep (timerArmed : Bool) (st : ChatSt) (e : ExtEv) : ChatSt :=
  match e with
  | .close => { st with disconnected := true }
  | .timerFire =>
    if !timerArmed || st.timedOut then st
    else
      let st1 := { st with timedOut := true }
      if st1.disconnected then st1
      else resEnd (resWrite st1 (.error timeoutMessage))

/-- A suspension (await) point: the pending external events run, in
order, while the handler is parked. -/
def pauseF (timerArmed : Bool) (st : ChatSt) (evs : List ExtEv) : ChatSt :=
  evs.foldl (extStep timerArmed) st

/-- The context section of the system prompt: concatenated page contents
of the retrieved chunks when any were found, the no-context sentence
otherwise (translated from the source). -/
def contextText (retrievedDocs : List String) : String :=
  if retrievedDocs.length > 0 then
    "Answer the user query based on the following context from PDF documents:\n"
      ++ String.intercalate ("\n\n") retrievedDocs
  else
    "No specific context available from PDF documents."

/-- The `SYSTEM_PROMPT` template string of `POST /chat`. -/
def SYSTEM_PROMPT (retrievedDocs : List String) : String :=
  "You are a helpful AI Assistant. " ++ contextText retrievedDocs
    ++ "\n\n    Instructions:\n    - If the context doesn\x27t contain relevant information, clearly state that\n    - Be concise and helpful\n    "

/-- A `{role, content}` message object. -/
def roleContent (role content : String) : JVal :=
  .jobj [("role", .jstr role), ("content", .jstr content)]

/-- The `messages` array handed to the completion call: system prompt,
then `conversationHistory.slice(-10)`, then the sanitized user message. -/
def buildMessages (retrievedDocs : List String) (conversationHistory : List JVal)
    (sanitizedMessage : String) : List JVal :=
  roleContent ("system") (SYSTEM_PROMPT retrievedDocs)
    :: (conversationHistory.drop (conversationHistory.length - 10)
        ++ [roleContent ("user") sanitizedMessage])

/-- What `retrievedDocs` holds after the fail-open retrieval block: the
retrieved page contents on success, `[]` when the retrieval call threw. -/
def retrievedOf : Except String (List String) → List String
  | .ok docs => docs
  | .error _ => []

/-- The schedule of external events for the next await point of the
token loop. -/
def schedHead (scheds : List (List ExtEv)) : List ExtEv :=
  scheds.headD []

/-- The token-forwarding loop of the handlers.  Each iteration first
awaits the next upstream chunk (an await point), then breaks if the
client has disconnected, then forwards the chunk's content as a `stream`
event when it is a non-empty string (JavaScript `if (content)`),
accumulating `fullResponse`.  Returns the state, the accumulated text and
whether the loop exited through the disconnect break. -/
def streamLoop (timerArmed : Bool) (st : ChatSt) (acc : String)
    (chunks : List (Option String)) (scheds : List (List ExtEv)) :
    ChatSt × String × Bool :=
  match chunks with
  | [] => (st, acc, false)
  | c :: cs =>
    let st1 := pauseF timerArmed st (schedHead scheds)
    if st1.disconnected then (st1, acc, true)
    else
      match c with
      | none => streamLoop timerArmed st1 acc cs scheds.tail
      | some content =>
        if content = "" then streamLoop timerArmed st1 acc cs scheds.tail
        else
          streamLoop timerArmed (resWrite st1 (.stream content))
            (acc ++ content) cs scheds.tail

/-- The catch block of `POST /chat`: the exception detail `_errMsg` goes
only to the server console, then — if the client is still connected — a
single generic `error` event is written and the response is ended.  The
client-visible payload does not mention `_errMsg`. -/
def postCatch (st : ChatSt) (_errMsg : String) : ChatSt :=
  if st.disconnected then st
  else resEnd (resWrite st (.error genericErrorMessage))

/-- Normal completion of `POST /chat`: if the client is still connected,
write the `done` event with its metadata and end the response. -/
def postDone (st : ChatSt) (documentsUsed responseLength : Nat) : ChatSt :=
  if st.disconnected then st
  else resEnd (resWrite st (.done documentsUsed responseLength))

/-- The part of `POST /chat` from the completion call onward: the create
call awaits (`s1`); it either throws (`genErr`) into the catch block, or
streams `chunks` (schedules `sc`), after which the iteration either
throws (`midErr`) or completes (`sEnd` is the final await), leading to
the catch block or the `done` event. -/
def runTail (st : ChatSt) (documentsUsed : Nat) (genErr : Option String)
    (chunks : List (Option String)) (midErr : Option String)
    (s1 : List ExtEv) (sc : List (List ExtEv)) (sEnd : List ExtEv) : ChatSt :=
  let st := pauseF true st s1
  match genErr with
  | some e => postCatch st e
  | none =>
    let r := streamLoop true st ("") chunks sc
    if r.2.2 then r.1
    else
      let st2 := pauseF true r.1 sEnd
      match midErr with
      | some e => postCatch st2 e
      | none => postDone st2 documentsUsed r.2.1.length

/-- The validated part of the `POST /chat` handler.  `message`, `hist`
and `model` come out of validation; `retrieval` is the outcome of the
vector-store call (failure is caught and degrades to zero chunks);
`genErr`, `chunks`, `midErr` describe the completion call; `s0`, `s1`,
`sc`, `sEnd` schedule the external events at the four kinds of await
points (retrieval, create call, each chunk, end of stream). -/
def runChat (message : String) (hist : List JVal) (model : String)
    (retrieval : Except String (List String)) (genErr : Option String)
    (chunks : List (Option String)) (midErr : Option String)
    (s0 s1 : List ExtEv) (sc : List (List ExtEv)) (sEnd : List ExtEv) : ChatSt :=
  let sanitizedMessage := jsTake (jsTrim message) 4000
  let st := pauseF true ({} : ChatSt) s0
  let retrievedDocs := retrievedOf retrieval
  let messages := buildMessages retrievedDocs hist sanitizedMessage
  let st := if retrievedDocs.length > 0 then resWrite st (.docs retrievedDocs) else st
  let st := resWrite st (.modelInfo model)
  let st := llmCallAct st model messages
  runTail st retrievedDocs.length genErr chunks midErr s1 sc sEnd

/-- Outcome of a `POST /chat` request: a plain HTTP 400 rejection (no SSE
stream is opened), or the SSE stream produced by the handler body. -/
inductive PostOutcome where
  | badRequest (status : Nat) (errMsg : String)
  | sse (st : ChatSt)

/-- The `POST /chat` handler: validate, and on success run the
orchestrator (sanitization of the message happens inside, as in the
source). -/
def handlePost (body : List (String × JVal))
    (retrieval : Except String (List String)) (genErr : Option String)
    (chunks : List (Option String)) (midErr : Option String)
    (s0 s1 : List ExtEv) (sc : List (List ExtEv)) (sEnd : List ExtEv) : PostOutcome :=
  match postChatValidate body with
  | .error e => .badRequest 400 e
  | .ok (message, hist, model) =>
    .sse (runChat message hist model retrieval genErr chunks midErr s0 s1 sc sEnd)

def PostOutcome.isReject400 : PostOutcome → Bool
  | .badRequest 400 _ => true
  | _ => false

/-- The SSE actions of an outcome; a 400 rejection writes none. -/
def outcomeActs : PostOutcome → List ChatAct
  | .badRequest _ _ => []
  | .sse st => st.acts

/-- The system prompt of the legacy `GET /chat` endpoint.  The source
interpolates `JSON.stringify(retrievedDocs)`; the serialization of the
document array is abstracted to the comma-separated page contents, which
no claim inspects. -/
def systemPromptGet (retrievedDocs : List String) : String :=
  "\n    You are a helpful AI Assistant who answers the user query based on the available context from PDF File.\n    Context:\n    "
    ++ String.intercalate (", ") retrievedDocs ++ "\n    "

/-- The catch block of the legacy `GET /chat` endpoint: it sends
`error.message || 'Unknown error'` to the client (an absent or empty
exception message is modelled as `""`). -/
def getCatch (st : ChatSt) (errMsg : String) : ChatSt :=
  if st.disconnected then st
  else resEnd (resWrite st (.error (if errMsg = "" then ("Unknown error") else errMsg)))

/-- The validated part of the legacy `GET /chat` handler.  No timer is
set on this route; retrieval is not individually guarded, so a retrieval
failure reaches the outer catch block; no `docs` event is written (that
write is commented out in the source); `done` carries no metadata. -/
def runChatGet (userQuery : String)
    (retrieval : Except String (List String)) (genErr : Option String)
    (chunks : List (Option String)) (midErr : Option String)
    (s0 s1 : List ExtEv) (sc : List (List ExtEv)) (sEnd : List ExtEv) : ChatSt :=
  let st : ChatSt := {}
  let st := pauseF false st s0
  match retrieval with
  | .error e => getCatch st e
  | .ok retrievedDocs =>
    let st := llmCallAct st ("gpt-4o")
      [roleContent ("system") (systemPromptGet retrievedDocs),
       roleContent ("user") userQuery]
    let st := pauseF false st s1
    match genErr with
    | some e => getCatch st e
    | none =>
      let r := streamLoop false st ("") chunks sc
      if r.2.2 then r.1
      else
        let st2 := pauseF false r.1 sEnd
        match midErr with
        | some e => getCatch st2 e
        | none =>
          if st2.disconnected then st2
          else resEnd (resWrite st2 .doneNoMeta)

/-- The `res.write` calls a handler made, in order. -/
def writes (st : ChatSt) : List WriteRec :=
  st.acts.filterMap fun a =>
    match a with
    | .write r => some r
    | .llmCall _ _ => none

/-- The event tags of all `res.write` calls. -/
def callTrace (st : ChatSt) : List ChatEv :=
  (writes st).map (·.ev)

/-- The events actually serialized onto the response: writes made before
`res.end()` (a write after `end` puts no bytes on the stream). -/
def sentOf (l : List ChatAct) : List ChatEv :=
  l.filterMap fun a =>
    match a with
    | .write r => if r.endedAtWrite then none else some r.ev
    | .llmCall _ _ => none

def sentTrace (st : ChatSt) : List ChatEv :=
  sentOf st.acts

/-- The completion calls a handler issued (model and messages). -/
def llmCallsOf (st : ChatSt) : List (String × List JVal) :=
  st.acts.filterMap fun a =>
    match a with
    | .llmCall m ms => some (m, ms)
    | .write _ => none

/-- Acceptor for `stream* (done|error)` as a prefix language: any number
of `stream` events, then at most one terminal event, then nothing. -/
def tailGrammar : List ChatEv → Bool
  | [] => true
  | e :: rest =>
    if isStreamEv e then tailGrammar rest
    else isTerminalEv e && rest.isEmpty

/-- Acceptor for prefixes of `[docs?] [model_info?] stream* (done|error)`. -/
def chatGrammar (l : List ChatEv) : Bool :=
  let l1 := match l with
    | [] => []
    | e :: rest => if isDocsEv e then rest else l
  let l2 := match l1 with
    | [] => []
    | e :: rest => if isModelInfoEv e then rest else l1
  tailGrammar l2

/-- Modelled from the spec: the worker configures langchain's
`RecursiveCharacterTextSplitter` with `chunkSize: 1000` and
`chunkOverlap: 200`; the splitter itself is an external library and is
not part of the repository sources.  The spec describes it as splitting
into overlapping chunks with a fixed window of `W` characters and a fixed
overlap of `O` characters between consecutive chunks, preserving order:
each chunk after the first starts `W - O` characters after its
predecessor. -/
def splitIntoChunks (W O : Nat) (text : List Char) : List (List Char) :=
  if text.length = 0 then []
  else if text.length ≤ W ∨ W ≤ O then [text]
  else text.take W :: splitIntoChunks W O (text.drop (W - O))
termination_by text.length
decreasing_by
  simp only [List.length_drop]
  omega

/-- The chunk count the claim asserts: `ceil((L - O) / (W - O))`,
evaluated over the integers so that a negative numerator rounds toward
zero. -/
def claimedChunkCount (W O : Nat) (L : Nat) : Int :=
  -((-((L : Int) - (O : Int))).ediv ((W : Int) - (O : Int)))

/-- The actual chunk count of the windowed splitter for a text of length
`L` with the source's `W = 1000`, `O = 200`: zero chunks for an empty
text, otherwise `max 1 ceil((L - 200) / 800)`. -/
def specChunkCount (L : Nat) : Nat :=
  if L = 0 then 0 else max 1 ((L - 200 + 799) / 800)

/-- Concatenation of the chunks after removing the `O`-character overlap
each chunk shares with its predecessor. -/
def glueChunks (O : Nat) : List (List Char) → List Char
  | [] => []
  | c :: cs => c ++ (cs.map (List.drop O)).flatten

/-- The external calls the ingestion worker makes while processing one
job. -/
inductive WCall where
  | load
  | split
  | addDocuments
deriving DecidableEq, Repr

/-- Result of running the worker's processor on one job: the value the
promise settles with (the re-thrown error on failure), the external calls
made, and the console log. -/
structure WorkerRun where
  result : Except String Unit
  calls : List WCall
  log : List String

/-- The `concurrency` option the worker is constructed with. -/
def workerConcurrency : Nat := 5

/-- The catch block of the worker's processor: log the failure and
re-throw the same error so the queue records the job as failed. -/
def workerCatch (jobId filePath e : String) (calls : List WCall)
    (log : List String) : WorkerRun :=
  ⟨.error e, calls,
    log ++ ["Failed to process job " ++ jobId ++ " for file " ++ filePath ++ ": " ++ e]⟩

/-- The worker's processor function, translated step by step: load the
PDF, split it, add the chunks to the vector store; any step's exception
reaches the single catch block, which logs and re-throws it.  `loadRes`,
`splitRes` and `storeRes` are the outcomes of the three awaited external
calls. -/
def processFileJob (jobId filePath : String)
    (loadRes : Except String (List String))
    (splitRes : Except String (List String))
    (storeRes : Except String Unit) : WorkerRun :=
  let log0 := ["Processing job " ++ jobId ++ " for file: " ++ filePath]
  match loadRes with
  | .error e => workerCatch jobId filePath e [.load] log0
  | .ok _loadedDocs =>
    let log1 := log0 ++ ["Loaded PDF: " ++ filePath]
    match splitRes with
    | .error e => workerCatch jobId filePath e [.load, .split] log1
    | .ok chunks =>
      let log2 := log1 ++ ["Split document into " ++ toString chunks.length ++ " chunks."]
      match storeRes with
      | .error e => workerCatch jobId filePath e [.load, .split, .addDocuments] log2
      | .ok _ =>
        ⟨.ok (), [.load, .split, .addDocuments],
          log2 ++ ["Successfully added " ++ toString chunks.length
            ++ " chunks to Qdrant for file: " ++ filePath]⟩

/-- No event of any kind follows a terminal (`done`/`error`) event. -/
def noEventAfterTerminal : List ChatEv → Bool
  | [] => true
  | e :: rest => if isTerminalEv e then rest.isEmpty else noEventAfterTerminal rest

def ChatAct.isLlm : ChatAct → Bool
  | .llmCall _ _ => true
  | .write _ => false

def ChatAct.isDocsWrite : ChatAct → Bool
  | .write r => isDocsEv r.ev
  | .llmCall _ _ => false

/-- An `error` event carries one of the two fixed messages of
`POST /chat` (timeout or the generic failure text); other events are
unconstrained. -/
def errPayloadFixed : ChatEv → Bool
  | .error m => (m == timeoutMessage) || (m == genericErrorMessage)
  | _ => true

/-- The content of the last message of a `messages` array, when that
message is a `{role: "user", content}` object. -/
def lastUserContent (messages : List JVal) : Option String :=
  match messages.getLast? with
  | some (.jobj [("role", .jstr r), ("content", .jstr c)]) =>
    if r = "user" then some c else none
  | _ => none

/-- The contents the `stream` events of a trace carry, in order. -/
def streamContents (l : List ChatEv) : List String :=
  l.filterMap fun e =>
    match e with
    | .stream c => some c
    | _ => none

/-! ### Basic trace lemmas -/

theorem sentOf_append (l1 l2 : List ChatAct) :
    sentOf (l1 ++ l2) = sentOf l1 ++ sentOf l2 := by
  simp [sentOf, List.filterMap_append]

theorem pauseF_nil (armed : Bool) (st : ChatSt) : pauseF armed st [] = st := rfl

theorem pauseF_cons (armed : Bool) (st : ChatSt) (e : ExtEv) (evs : List ExtEv) :
    pauseF armed st (e :: evs) = pauseF armed (extStep armed st e) evs := rfl

/-- Once the timer has fired, a pause can neither write nor end. -/
theorem pauseF_timedOut (armed : Bool) (evs : List ExtEv) :
    ∀ st : ChatSt, st.timedOut = true →
      (pauseF armed st evs).acts = st.acts ∧ (pauseF armed st evs).ended = st.ended ∧
      (pauseF armed st evs).timedOut = true := by
  induction evs with
  | nil => intro st h; exact ⟨rfl, rfl, h⟩
  | cons e evs ih =>
    intro st h
    rw [pauseF_cons]
    cases e with
    | close => exact ih _ h
    | timerFire =>
      have : extStep armed st .timerFire = st := by
        simp [extStep, h]
      rw [this]
      exact ih st h

/-! Case equations for `extStep`. -/

theorem extStep_close (armed : Bool) (st : ChatSt) :
    extStep armed st .close = { st with disconnected := true } := rfl

theorem extStep_fire_skip (armed : Bool) (st : ChatSt)
    (h : (!armed || st.timedOut) = true) :
    extStep armed st .timerFire = st := by
  simp [extStep, h]

theorem extStep_fire_disc (armed : Bool) (st : ChatSt)
    (h : (!armed || st.timedOut) = false) (hd : st.disconnected = true) :
    extStep armed st .timerFire = { st with timedOut := true } := by
  simp [extStep, h, hd]

theorem extStep_fire_write (armed : Bool) (st : ChatSt)
    (h : (!armed || st.timedOut) = false) (hd : st.disconnected = false) :
    extStep armed st .timerFire
      = { st with
            timedOut := true
            ended := true
            acts := st.acts ++ [ChatAct.write ⟨.error timeoutMessage, st.ended, false⟩] } := by
  simp [extStep, h, hd, resWrite, resEnd]

/-- During a pause, either nothing is written and `ended` is unchanged,
or the timer fires while the client is connected, appending exactly one
timeout `error` write (recorded with the entry value of `ended` and with
`disconnectedAtWrite = false`) and ending the response. -/
theorem pauseF_spec (armed : Bool) (evs : List ExtEv) :
    ∀ st : ChatSt,
      ((pauseF armed st evs).acts = st.acts ∧ (pauseF armed st evs).ended = st.ended)
      ∨ ((pauseF armed st evs).acts
            = st.acts ++ [ChatAct.write ⟨.error timeoutMessage, st.ended, false⟩]
          ∧ (pauseF armed st evs).ended = true) := by
  induction evs with
  | nil => intro st; exact Or.inl ⟨rfl, rfl⟩
  | cons e evs ih =>
    intro st
    rw [pauseF_cons]
    cases e with
    | close =>
      rw [extStep_close]
      rcases ih { st with disconnected := true } with ⟨h1, h2⟩ | ⟨h1, h2⟩
      · exact Or.inl ⟨h1, h2⟩
      · exact Or.inr ⟨h1, h2⟩
    | timerFire =>
      by_cases harm : (!armed || st.timedOut) = true
      · rw [extStep_fire_skip armed st harm]
        exact ih st
      · have harm2 : (!armed || st.timedOut) = false := by
          simpa using harm
        by_cases hd : st.disconnected = true
        · rw [extStep_fire_disc armed st harm2 hd]
          have := pauseF_timedOut armed evs { st with timedOut := true } rfl
          exact Or.inl ⟨this.1, this.2.1⟩
        · have hd2 : st.disconnected = false := by simpa using hd
          rw [extStep_fire_write armed st harm2 hd2]
          have := pauseF_timedOut armed evs
            { st with
                timedOut := true
                ended := true
                acts := st.acts ++ [ChatAct.write ⟨.error timeoutMessage, st.ended, false⟩] }
            rfl
          exact Or.inr ⟨this.1, this.2.1⟩

theorem sentOf_nil : sentOf [] = [] := rfl

theorem sentOf_write (r : WriteRec) :
    sentOf [ChatAct.write r] = if r.endedAtWrite then [] else [r.ev] := by
  cases h : r.endedAtWrite <;> simp [sentOf, h]

/-! Unfolding equations for `streamLoop`. -/

theorem streamLoop_nil (armed : Bool) (st : ChatSt) (acc : String)
    (scheds : List (List ExtEv)) :
    streamLoop armed st acc [] scheds = (st, acc, false) := rfl

theorem streamLoop_cons_disc (armed : Bool) (st : ChatSt) (acc : String)
    (c : Option String) (cs : List (Option String)) (scheds : List (List ExtEv))
    (h : (pauseF armed st (schedHead scheds)).disconnected = true) :
    streamLoop armed st acc (c :: cs) scheds
      = (pauseF armed st (schedHead scheds), acc, true) := by
  simp only [streamLoop, h, if_true]

theorem streamLoop_cons_none (armed : Bool) (st : ChatSt) (acc : String)
    (cs : List (Option String)) (scheds : List (List ExtEv))
    (h : (pauseF armed st (schedHead scheds)).disconnected = false) :
    streamLoop armed st acc (none :: cs) scheds
      = streamLoop armed (pauseF armed st (schedHead scheds)) acc cs scheds.tail := by
  simp only [streamLoop, h, Bool.false_eq_true, if_false]

theorem streamLoop_cons_empty (armed : Bool) (st : ChatSt) (acc : String)
    (cs : List (Option String)) (scheds : List (List ExtEv))
    (h : (pauseF armed st (schedHead scheds)).disconnected = false) :
    streamLoop armed st acc (some "" :: cs) scheds
      = streamLoop armed (pauseF armed st (schedHead scheds)) acc cs scheds.tail := by
  simp only [streamLoop, h, Bool.false_eq_true, if_false, if_true]

theorem streamLoop_cons_some (armed : Bool) (st : ChatSt) (acc : String)
    (content : String) (cs : List (Option String)) (scheds : List (List ExtEv))
    (h : (pauseF armed st (schedHead scheds)).disconnected = false)
    (hc : content ≠ "") :
    streamLoop armed st acc (some content :: cs) scheds
      = streamLoop armed
          (resWrite (pauseF armed st (schedHead scheds)) (.stream content))
          (acc ++ content) cs scheds.tail := by
  simp only [streamLoop, h, Bool.false_eq_true, if_false, hc]

/-- What the token loop adds to the action list: only `stream` writes and
at most one timeout `error` write, all made while the client was
connected; the events it actually sends are a run of `stream` events
followed, when the timer fired mid-loop (`b`), by the timeout error; the
loop leaves `ended` set iff it was set or the timer fired; once `ended`
is set nothing further reaches the response. -/
theorem streamLoop_spec (armed : Bool) :
    ∀ (chunks : List (Option String)) (scheds : List (List ExtEv))
      (st : ChatSt) (acc : String),
    ∃ (d : List ChatAct) (S : List ChatEv) (b : Bool),
      (streamLoop armed st acc chunks scheds).1.acts = st.acts ++ d
      ∧ (∀ a ∈ d, ∃ r : WriteRec, a = .write r ∧ r.disconnectedAtWrite = false
            ∧ (isStreamEv r.ev = true ∨ r.ev = .error timeoutMessage))
      ∧ sentOf d = S ++ (if b then [ChatEv.error timeoutMessage] else [])
      ∧ (∀ e ∈ S, isStreamEv e = true)
      ∧ (streamLoop armed st acc chunks scheds).1.ended = (st.ended || b)
      ∧ (st.ended = true → S = [] ∧ b = false) := by
  intro chunks
  induction chunks with
  | nil =>
    intro scheds st acc
    refine ⟨[], [], false, ?_, ?_, ?_, ?_, ?_, ?_⟩ <;>
      simp [streamLoop_nil, sentOf_nil]
  | cons c cs ih =>
    intro scheds st acc
    rcases pauseF_spec armed (schedHead scheds) st with ⟨hp1, hp2⟩ | ⟨hp1, hp2⟩
    · -- the pause wrote nothing
      by_cases hdisc : (pauseF armed st (schedHead scheds)).disconnected = true
      · refine ⟨[], [], false, ?_, ?_, ?_, ?_, ?_, ?_⟩ <;>
          simp [streamLoop_cons_disc armed st acc c cs scheds hdisc, hp1, hp2, sentOf_nil]
      · have hdisc2 : (pauseF armed st (schedHead scheds)).disconnected = false := by
          simpa using hdisc
        have key : ∀ st2 : ChatSt, st2.acts = st.acts → st2.ended = st.ended →
            ∀ acc2 : String,
            ∃ (d : List ChatAct) (S : List ChatEv) (b : Bool),
              (streamLoop armed st2 acc2 cs scheds.tail).1.acts = st.acts ++ d
              ∧ (∀ a ∈ d, ∃ r : WriteRec, a = .write r ∧ r.disconnectedAtWrite = false
                    ∧ (isStreamEv r.ev = true ∨ r.ev = .error timeoutMessage))
              ∧ sentOf d = S ++ (if b then [ChatEv.error timeoutMessage] else [])
              ∧ (∀ e ∈ S, isStreamEv e = true)
              ∧ (streamLoop armed st2 acc2 cs scheds.tail).1.ended = (st.ended || b)
              ∧ (st.ended = true → S = [] ∧ b = false) := by
          intro st2 ha he acc2
          obtain ⟨d, S, b, h1, h2, h3, h4, h5, h6⟩ := ih scheds.tail st2 acc2
          exact ⟨d, S, b, by rw [h1, ha], h2, h3, h4, by rw [h5, he],
            fun h => h6 (he.trans h)⟩
        match c with
        | none =>
          rw [streamLoop_cons_none armed st acc cs scheds hdisc2]
          exact key _ hp1 hp2 acc
        | some content =>
          by_cases hc : content = ""
          · subst hc
            rw [streamLoop_cons_empty armed st acc cs scheds hdisc2]
            exact key _ hp1 hp2 acc
          · rw [streamLoop_cons_some armed st acc content cs scheds hdisc2 hc]
            have hacts : (resWrite (pauseF armed st (schedHead scheds))
                (.stream content)).acts
                = st.acts ++ [ChatAct.write ⟨.stream content, st.ended, false⟩] := by
              simp [resWrite, hp1, hp2, hdisc2]
            have hend : (resWrite (pauseF armed st (schedHead scheds))
                (.stream content)).ended = st.ended := by
              simp [resWrite, hp2]
            obtain ⟨d, S, b, h1, h2, h3, h4, h5, h6⟩ :=
              ih scheds.tail (resWrite (pauseF armed st (schedHead scheds))
                (.stream content)) (acc ++ content)
            refine ⟨ChatAct.write ⟨.stream content, st.ended, false⟩ :: d,
              (if st.ended then [] else [ChatEv.stream content]) ++ S, b,
              ?_, ?_, ?_, ?_, ?_, ?_⟩
            · rw [h1, hacts, List.append_assoc]
              rfl
            · intro a ha
              rcases List.mem_cons.mp ha with h | h
              · exact ⟨⟨.stream content, st.ended, false⟩, h, rfl, Or.inl rfl⟩
              · exact h2 a h
            · have hsplit : sentOf (ChatAct.write ⟨.stream content, st.ended, false⟩ :: d)
                  = sentOf [ChatAct.write ⟨.stream content, st.ended, false⟩] ++ sentOf d := by
                rw [← sentOf_append]
                rfl
              rw [hsplit, sentOf_write, h3]
              cases hse : st.ended <;> simp
            · intro e he
              rcases List.mem_append.mp he with h | h
              · cases hse : st.ended <;> rw [hse] at h <;> simp at h
                rw [h]
                rfl
              · exact h4 e h
            · rw [h5, hend]
            · intro h
              obtain ⟨hS, hb⟩ := h6 (hend.trans h)
              exact ⟨by simp [h, hS], hb⟩
    · -- the pause wrote the timeout error and ended the response
      have hp2e : (pauseF armed st (schedHead scheds)).ended = true := hp2
      by_cases hdisc : (pauseF armed st (schedHead scheds)).disconnected = true
      · refine ⟨[ChatAct.write ⟨.error timeoutMessage, st.ended, false⟩], [], !st.ended,
          ?_, ?_, ?_, ?_, ?_, ?_⟩
        · simp [streamLoop_cons_disc armed st acc c cs scheds hdisc, hp1]
        · intro a ha
          simp only [List.mem_singleton] at ha
          exact ⟨_, ha, rfl, Or.inr rfl⟩
        · rw [sentOf_write]
          cases hse : st.ended <;> simp
        · intro e he
          simp at he
        · simp [streamLoop_cons_disc armed st acc c cs scheds hdisc, hp2]
        · intro h
          simp [h]
      · have hdisc2 : (pauseF armed st (schedHead scheds)).disconnected = false := by
          simpa using hdisc
        have key2 : ∀ st2 : ChatSt, ∀ extra : List ChatAct,
            st2.acts = st.acts ++ [ChatAct.write ⟨.error timeoutMessage, st.ended, false⟩]
              ++ extra
            → st2.ended = true
            → (∀ a ∈ extra,
                 ∃ r : WriteRec, a = .write r ∧ r.disconnectedAtWrite = false
                   ∧ (isStreamEv r.ev = true ∨ r.ev = .error timeoutMessage))
            → sentOf extra = []
            → ∀ acc2 : String,
            ∃ (d : List ChatAct) (S : List ChatEv) (b : Bool),
              (streamLoop armed st2 acc2 cs scheds.tail).1.acts = st.acts ++ d
              ∧ (∀ a ∈ d, ∃ r : WriteRec, a = .write r ∧ r.disconnectedAtWrite = false
                    ∧ (isStreamEv r.ev = true ∨ r.ev = .error timeoutMessage))
              ∧ sentOf d = S ++ (if b then [ChatEv.error timeoutMessage] else [])
              ∧ (∀ e ∈ S, isStreamEv e = true)
              ∧ (streamLoop armed st2 acc2 cs scheds.tail).1.ended = (st.ended || b)
              ∧ (st.ended = true → S = [] ∧ b = false) := by
          intro st2 extra ha he hgood hsent acc2
          obtain ⟨d, S, b, h1, h2, h3, h4, h5, h6⟩ := ih scheds.tail st2 acc2
          obtain ⟨hS, hb⟩ := h6 he
          subst hS hb
          refine ⟨ChatAct.write ⟨.error timeoutMessage, st.ended, false⟩
              :: (extra ++ d), [], !st.ended,
            ?_, ?_, ?_, ?_, ?_, ?_⟩
          · rw [h1, ha]
            simp [List.append_assoc]
          · intro a hmem
            rcases List.mem_cons.mp hmem with h | h
            · exact ⟨_, h, rfl, Or.inr rfl⟩
            · rcases List.mem_append.mp h with h | h
              · exact hgood a h
              · exact h2 a h
          · have hsplit : sentOf (ChatAct.write ⟨.error timeoutMessage, st.ended, false⟩
                :: (extra ++ d))
                = sentOf [ChatAct.write ⟨.error timeoutMessage, st.ended, false⟩]
                  ++ (sentOf extra ++ sentOf d) := by
              rw [← sentOf_append, ← sentOf_append]
              rfl
            rw [hsplit, sentOf_write, hsent, h3]
            cases hse : st.ended <;> simp
          · intro e he2
            simp at he2
          · rw [h5, he]
            cases hse : st.ended <;> simp
          · intro h
            simp [h]
        match c with
        | none =>
          rw [streamLoop_cons_none armed st acc cs scheds hdisc2]
          refine key2 _ [] (by rw [hp1]; simp) hp2e (by simp) (by simp [sentOf_nil]) acc
        | some content =>
          by_cases hc : content = ""
          · subst hc
            rw [streamLoop_cons_empty armed st acc cs scheds hdisc2]
            refine key2 _ [] (by rw [hp1]; simp) hp2e (by simp) (by simp [sentOf_nil]) acc
          · rw [streamLoop_cons_some armed st acc content cs scheds hdisc2 hc]
            have hacts : (resWrite (pauseF armed st (schedHead scheds))
                (.stream content)).acts
                = st.acts ++ [ChatAct.write ⟨.error timeoutMessage, st.ended, false⟩]
                  ++ [ChatAct.write ⟨.stream content, true, false⟩] := by
              simp [resWrite, hp1, hp2e, hdisc2]
            have hend : (resWrite (pauseF armed st (schedHead scheds))
                (.stream content)).ended = true := by
              simp [resWrite, hp2e]
            refine key2 _ [ChatAct.write ⟨.stream content, true, false⟩] hacts hend
              ?_ ?_ (acc ++ content)
            · intro a hmem
              simp only [List.mem_singleton] at hmem
              exact ⟨_, hmem, rfl, Or.inl rfl⟩
            · simp [sentOf]

theorem postCatch_spec (st : ChatSt) (e : String) :
    ∃ d : List ChatAct,
      (postCatch st e).acts = st.acts ++ d
      ∧ (∀ a ∈ d, ∃ r : WriteRec, a = .write r ∧ r.disconnectedAtWrite = false
            ∧ r.ev = .error genericErrorMessage)
      ∧ (sentOf d = [] ∨ sentOf d = [.error genericErrorMessage])
      ∧ (st.ended = true → sentOf d = []) := by
  by_cases hd : st.disconnected = true
  · refine ⟨[], by simp [postCatch, hd], ?_, Or.inl rfl, fun _ => rfl⟩
    intro a ha
    simp at ha
  · have hd2 : st.disconnected = false := by simpa using hd
    refine ⟨[ChatAct.write ⟨.error genericErrorMessage, st.ended, false⟩], ?_, ?_, ?_, ?_⟩
    · simp [postCatch, hd2, resEnd, resWrite]
    · intro a ha
      simp only [List.mem_singleton] at ha
      exact ⟨_, ha, rfl, rfl⟩
    · rw [sentOf_write]
      cases hse : st.ended <;> simp
    · intro h
      rw [sentOf_write]
      simp [h]

theorem postDone_spec (st : ChatSt) (du rl : Nat) :
    ∃ d : List ChatAct,
      (postDone st du rl).acts = st.acts ++ d
      ∧ (∀ a ∈ d, ∃ r : WriteRec, a = .write r ∧ r.disconnectedAtWrite = false
            ∧ r.ev = .done du rl)
      ∧ (sentOf d = [] ∨ sentOf d = [.done du rl])
      ∧ (st.ended = true → sentOf d = []) := by
  by_cases hd : st.disconnected = true
  · refine ⟨[], by simp [postDone, hd], ?_, Or.inl rfl, fun _ => rfl⟩
    intro a ha
    simp at ha
  · have hd2 : st.disconnected = false := by simpa using hd
    refine ⟨[ChatAct.write ⟨.done du rl, st.ended, false⟩], ?_, ?_, ?_, ?_⟩
    · simp [postDone, hd2, resEnd, resWrite]
    · intro a ha
      simp only [List.mem_singleton] at ha
      exact ⟨_, ha, rfl, rfl⟩
    · rw [sentOf_write]
      cases hse : st.ended <;> simp
    · intro h
      rw [sentOf_write]
      simp [h]

theorem finish_spec (st2 : ChatSt) (du : Nat) (midErr : Option String) (rl : Nat) :
    ∃ d : List ChatAct,
      (match midErr with
       | some e => postCatch st2 e
       | none => postDone st2 du rl).acts = st2.acts ++ d
      ∧ (∀ a ∈ d, ∃ r : WriteRec, a = .write r ∧ r.disconnectedAtWrite = false
            ∧ (r.ev = .error genericErrorMessage ∨ r.ev = .done du rl))
      ∧ (sentOf d = [] ∨ sentOf d = [.error genericErrorMessage] ∨ sentOf d = [.done du rl])
      ∧ (st2.ended = true → sentOf d = []) := by
  cases midErr with
  | some e =>
    obtain ⟨d, h1, h2, h3, h4⟩ := postCatch_spec st2 e
    exact ⟨d, h1, fun a ha => by
        obtain ⟨r, hr1, hr2, hr3⟩ := h2 a ha
        exact ⟨r, hr1, hr2, Or.inl hr3⟩,
      h3.imp id Or.inl, h4⟩
  | none =>
    obtain ⟨d, h1, h2, h3, h4⟩ := postDone_spec st2 du rl
    exact ⟨d, h1, fun a ha => by
        obtain ⟨r, hr1, hr2, hr3⟩ := h2 a ha
        exact ⟨r, hr1, hr2, Or.inr hr3⟩,
      h3.imp id Or.inr, h4⟩

theorem tailFin_spec (stq : ChatSt) (du : Nat) (midErr : Option String) (rl : Nat)
    (sEnd : List ExtEv) :
    ∃ d : List ChatAct,
      (match midErr with
       | some e => postCatch (pauseF true stq sEnd) e
       | none => postDone (pauseF true stq sEnd) du rl).acts = stq.acts ++ d
      ∧ (∀ a ∈ d, ∃ r : WriteRec, a = .write r ∧ r.disconnectedAtWrite = false
            ∧ (r.ev = .error timeoutMessage ∨ r.ev = .error genericErrorMessage
               ∨ r.ev = .done du rl))
      ∧ (sentOf d = [] ∨ sentOf d = [.error timeoutMessage]
          ∨ sentOf d = [.error genericErrorMessage] ∨ sentOf d = [.done du rl])
      ∧ (stq.ended = true → sentOf d = []) := by
  obtain ⟨df, hf1, hf2, hf3, hf4⟩ := finish_spec (pauseF true stq sEnd) du midErr rl
  rcases pauseF_spec true sEnd stq with ⟨hq1, hq2⟩ | ⟨hq1, hq2⟩
  · refine ⟨df, by rw [hf1, hq1], ?_, ?_, ?_⟩
    · intro a ha
      obtain ⟨r, hr1, hr2, hr3⟩ := hf2 a ha
      rcases hr3 with h | h
      · exact ⟨r, hr1, hr2, Or.inr (Or.inl h)⟩
      · exact ⟨r, hr1, hr2, Or.inr (Or.inr h)⟩
    · rcases hf3 with h | h | h
      · exact Or.inl h
      · exact Or.inr (Or.inr (Or.inl h))
      · exact Or.inr (Or.inr (Or.inr h))
    · intro h
      exact hf4 (hq2.trans h)
  · have hDF : sentOf df = [] := hf4 hq2
    refine ⟨ChatAct.write ⟨.error timeoutMessage, stq.ended, false⟩ :: df,
      ?_, ?_, ?_, ?_⟩
    · rw [hf1, hq1]
      simp
    · intro a ha
      rcases List.mem_cons.mp ha with h | h
      · exact ⟨_, h, rfl, Or.inl rfl⟩
      · obtain ⟨r, hr1, hr2, hr3⟩ := hf2 a h
        exact ⟨r, hr1, hr2, Or.inr hr3⟩
    · have hsplit : sentOf (ChatAct.write ⟨.error timeoutMessage, stq.ended, false⟩ :: df)
          = sentOf [ChatAct.write ⟨.error timeoutMessage, stq.ended, false⟩] ++ sentOf df := by
        rw [← sentOf_append]
        rfl
      rw [hsplit, sentOf_write, hDF]
      cases hse : stq.ended <;> simp
    · intro h
      have hsplit : sentOf (ChatAct.write ⟨.error timeoutMessage, stq.ended, false⟩ :: df)
          = sentOf [ChatAct.write ⟨.error timeoutMessage, stq.ended, false⟩] ++ sentOf df := by
        rw [← sentOf_append]
        rfl
      rw [hsplit, sentOf_write, hDF, h]
      simp

/-! Unfolding equations for `runTail`. -/

theorem runTail_someGen (st : ChatSt) (du : Nat) (e : String)
    (chunks : List (Option String)) (midErr : Option String)
    (s1 : List ExtEv) (sc : List (List ExtEv)) (sEnd : List ExtEv) :
    runTail st du (some e) chunks midErr s1 sc sEnd
      = postCatch (pauseF true st s1) e := rfl

theorem runTail_noneGen_broke (st : ChatSt) (du : Nat)
    (chunks : List (Option String)) (midErr : Option String)
    (s1 : List ExtEv) (sc : List (List ExtEv)) (sEnd : List ExtEv)
    (h : (streamLoop true (pauseF true st s1) ("") chunks sc).2.2 = true) :
    runTail st du none chunks midErr s1 sc sEnd
      = (streamLoop true (pauseF true st s1) ("") chunks sc).1 := by
  simp only [runTail, h, if_true]

theorem runTail_noneGen_fin (st : ChatSt) (du : Nat)
    (chunks : List (Option String)) (midErr : Option String)
    (s1 : List ExtEv) (sc : List (List ExtEv)) (sEnd : List ExtEv)
    (h : (streamLoop true (pauseF true st s1) ("") chunks sc).2.2 = false) :
    runTail st du none chunks midErr s1 sc sEnd
      = match midErr with
        | some e =>
          postCatch (pauseF true (streamLoop true (pauseF true st s1) ("") chunks sc).1 sEnd) e
        | none =>
          postDone (pauseF true (streamLoop true (pauseF true st s1) ("") chunks sc).1 sEnd)
            du (streamLoop true (pauseF true st s1) ("") chunks sc).2.1.length := by
  simp only [runTail, h, Bool.false_eq_true, if_false]

/-- What the whole post-create tail of `POST /chat` adds: only `stream`,
timeout-`error`, generic-`error` and `done` writes, all made while the
client was connected; on the wire this is a run of `stream` events
followed by at most one terminal event; once `ended` is set nothing
further reaches the response. -/
theorem runTail_spec (st : ChatSt) (du : Nat) (genErr : Option String)
    (chunks : List (Option String)) (midErr : Option String)
    (s1 : List ExtEv) (sc : List (List ExtEv)) (sEnd : List ExtEv) :
    ∃ (d : List ChatAct) (S T : List ChatEv),
      (runTail st du genErr chunks midErr s1 sc sEnd).acts = st.acts ++ d
      ∧ (∀ a ∈ d, ∃ r : WriteRec, a = .write r ∧ r.disconnectedAtWrite = false
            ∧ (isStreamEv r.ev = true ∨ r.ev = .error timeoutMessage
               ∨ r.ev = .error genericErrorMessage ∨ ∃ n m, r.ev = .done n m))
      ∧ sentOf d = S ++ T
      ∧ (∀ e ∈ S, isStreamEv e = true)
      ∧ (T = [] ∨ T = [.error timeoutMessage] ∨ T = [.error genericErrorMessage]
         ∨ ∃ n m, T = [.done n m])
      ∧ (st.ended = true → sentOf d = []) := by
  cases genErr with
  | some e =>
    rw [runTail_someGen]
    obtain ⟨dc, hc1, hc2, hc3, hc4⟩ := postCatch_spec (pauseF true st s1) e
    rcases pauseF_spec true s1 st with ⟨hp1, hp2⟩ | ⟨hp1, hp2⟩
    · refine ⟨dc, [], sentOf dc, by rw [hc1, hp1], ?_, rfl, ?_, ?_, ?_⟩
      · intro a ha
        obtain ⟨r, hr1, hr2, hr3⟩ := hc2 a ha
        exact ⟨r, hr1, hr2, Or.inr (Or.inr (Or.inl hr3))⟩
      · intro x hx
        simp at hx
      · rcases hc3 with h | h
        · exact Or.inl h
        · exact Or.inr (Or.inr (Or.inl h))
      · intro h
        exact hc4 (hp2.trans h)
    · have hDC : sentOf dc = [] := hc4 hp2
      refine ⟨ChatAct.write ⟨.error timeoutMessage, st.ended, false⟩ :: dc, [],
        if st.ended then [] else [ChatEv.error timeoutMessage], ?_, ?_, ?_, ?_, ?_, ?_⟩
      · rw [hc1, hp1]
        simp
      · intro a ha
        rcases List.mem_cons.mp ha with h | h
        · exact ⟨_, h, rfl, Or.inr (Or.inl rfl)⟩
        · obtain ⟨r, hr1, hr2, hr3⟩ := hc2 a h
          exact ⟨r, hr1, hr2, Or.inr (Or.inr (Or.inl hr3))⟩
      · have hsplit : sentOf (ChatAct.write ⟨.error timeoutMessage, st.ended, false⟩ :: dc)
            = sentOf [ChatAct.write ⟨.error timeoutMessage, st.ended, false⟩] ++ sentOf dc := by
          rw [← sentOf_append]
          rfl
        rw [hsplit, sentOf_write, hDC]
        cases hse : st.ended <;> simp
      · intro x hx
        simp at hx
      · cases hse : st.ended <;> simp
      · intro h
        have hsplit : sentOf (ChatAct.write ⟨.error timeoutMessage, st.ended, false⟩ :: dc)
            = sentOf [ChatAct.write ⟨.error timeoutMessage, st.ended, false⟩] ++ sentOf dc := by
          rw [← sentOf_append]
          rfl
        rw [hsplit, sentOf_write, hDC, h]
        simp
  | none =>
    obtain ⟨dl, Sl, bl, hl1, hl2, hl3, hl4, hl5, hl6⟩ :=
      streamLoop_spec true chunks sc (pauseF true st s1) ("")
    by_cases hbroke : (streamLoop true (pauseF true st s1) ("") chunks sc).2.2 = true
    · rw [runTail_noneGen_broke st du chunks midErr s1 sc sEnd hbroke]
      rcases pauseF_spec true s1 st with ⟨hp1, hp2⟩ | ⟨hp1, hp2⟩
      · refine ⟨dl, Sl, if bl then [ChatEv.error timeoutMessage] else [],
          by rw [hl1, hp1], ?_, hl3, hl4, ?_, ?_⟩
        · intro a ha
          obtain ⟨r, hr1, hr2, hr3⟩ := hl2 a ha
          exact ⟨r, hr1, hr2, hr3.imp id Or.inl⟩
        · cases bl <;> simp
        · intro h
          obtain ⟨hS, hb⟩ := hl6 (hp2.trans h)
          rw [hl3, hS, hb]
          simp
      · obtain ⟨hS, hb⟩ := hl6 hp2
        subst hS hb
        refine ⟨ChatAct.write ⟨.error timeoutMessage, st.ended, false⟩ :: dl, [],
          if st.ended then [] else [ChatEv.error timeoutMessage], ?_, ?_, ?_, ?_, ?_, ?_⟩
        · rw [hl1, hp1]
          simp
        · intro a ha
          rcases List.mem_cons.mp ha with h | h
          · exact ⟨_, h, rfl, Or.inr (Or.inl rfl)⟩
          · obtain ⟨r, hr1, hr2, hr3⟩ := hl2 a h
            exact ⟨r, hr1, hr2, hr3.imp id Or.inl⟩
        · have hDL : sentOf dl = [] := by
            rw [hl3]
            simp
          have hsplit : sentOf (ChatAct.write ⟨.error timeoutMessage, st.ended, false⟩ :: dl)
              = sentOf [ChatAct.write ⟨.error timeoutMessage, st.ended, false⟩] ++ sentOf dl := by
            rw [← sentOf_append]
            rfl
          rw [hsplit, sentOf_write, hDL]
          cases hse : st.ended <;> simp
        · intro x hx
          simp at hx
        · cases hse : st.ended <;> simp
        · intro h
          have hDL : sentOf dl = [] := by
            rw [hl3]
            simp
          have hsplit : sentOf (ChatAct.write ⟨.error timeoutMessage, st.ended, false⟩ :: dl)
              = sentOf [ChatAct.write ⟨.error timeoutMessage, st.ended, false⟩] ++ sentOf dl := by
            rw [← sentOf_append]
            rfl
          rw [hsplit, sentOf_write, hDL, h]
          simp
    · have hbroke2 : (streamLoop true (pauseF true st s1) ("") chunks sc).2.2 = false := by
        simpa using hbroke
      rw [runTail_noneGen_fin st du chunks midErr s1 sc sEnd hbroke2]
      obtain ⟨dt, ht1, ht2, ht3, ht4⟩ :=
        tailFin_spec (streamLoop true (pauseF true st s1) ("") chunks sc).1 du midErr
          (streamLoop true (pauseF true st s1) ("") chunks sc).2.1.length sEnd
      have hrend : (streamLoop true (pauseF true st s1) ("") chunks sc).1.ended
          = ((pauseF true st s1).ended || bl) := hl5
      rcases pauseF_spec true s1 st with ⟨hp1, hp2⟩ | ⟨hp1, hp2⟩
      · -- create-await pause wrote nothing
        refine ⟨dl ++ dt, Sl,
          (if bl then [ChatEv.error timeoutMessage] else []) ++ sentOf dt,
          ?_, ?_, ?_, hl4, ?_, ?_⟩
        · rw [ht1, hl1, hp1, List.append_assoc]
        · intro a ha
          rcases List.mem_append.mp ha with h | h
          · obtain ⟨r, hr1, hr2, hr3⟩ := hl2 a h
            exact ⟨r, hr1, hr2, hr3.imp id Or.inl⟩
          · obtain ⟨r, hr1, hr2, hr3⟩ := ht2 a h
            rcases hr3 with h3 | h3 | h3
            · exact ⟨r, hr1, hr2, Or.inr (Or.inl h3)⟩
            · exact ⟨r, hr1, hr2, Or.inr (Or.inr (Or.inl h3))⟩
            · exact ⟨r, hr1, hr2, Or.inr (Or.inr (Or.inr ⟨_, _, h3⟩))⟩
        · rw [sentOf_append, hl3, List.append_assoc]
        · by_cases hblt : bl = true
          · have hrend2 : (streamLoop true (pauseF true st s1) ("") chunks sc).1.ended = true := by
              rw [hrend, hblt]
              simp
            have : sentOf dt = [] := ht4 hrend2
            rw [hblt, this]
            simp
          · have hblf : bl = false := by simpa using hblt
            rw [hblf]
            simp only [Bool.false_eq_true, if_false, List.nil_append]
            rcases ht3 with h | h | h | h
            · exact Or.inl (by simpa using h)
            · exact Or.inr (Or.inl (by simpa using h))
            · exact Or.inr (Or.inr (Or.inl (by simpa using h)))
            · exact Or.inr (Or.inr (Or.inr ⟨_, _, by simpa using h⟩))
        · intro h
          obtain ⟨hS, hb⟩ := hl6 (hp2.trans h)
          have hrend2 : (streamLoop true (pauseF true st s1) ("") chunks sc).1.ended = true := by
            rw [hrend, hp2, h]
            simp
          have hDT : sentOf dt = [] := ht4 hrend2
          rw [sentOf_append, hl3, hS, hb, hDT]
          simp
      · -- create-await pause wrote the timeout error
        obtain ⟨hS, hb⟩ := hl6 hp2
        subst hS hb
        have hrend2 : (streamLoop true (pauseF true st s1) ("") chunks sc).1.ended = true := by
          rw [hrend, hp2]
          simp
        have hDT : sentOf dt = [] := ht4 hrend2
        have hDL : sentOf dl = [] := by
          rw [hl3]
          simp
        refine ⟨ChatAct.write ⟨.error timeoutMessage, st.ended, false⟩ :: (dl ++ dt), [],
          if st.ended then [] else [ChatEv.error timeoutMessage], ?_, ?_, ?_, ?_, ?_, ?_⟩
        · rw [ht1, hl1, hp1]
          simp [List.append_assoc]
        · intro a ha
          rcases List.mem_cons.mp ha with h | h
          · exact ⟨_, h, rfl, Or.inr (Or.inl rfl)⟩
          · rcases List.mem_append.mp h with h2 | h2
            · obtain ⟨r, hr1, hr2, hr3⟩ := hl2 a h2
              exact ⟨r, hr1, hr2, hr3.imp id Or.inl⟩
            · obtain ⟨r, hr1, hr2, hr3⟩ := ht2 a h2
              rcases hr3 with h3 | h3 | h3
              · exact ⟨r, hr1, hr2, Or.inr (Or.inl h3)⟩
              · exact ⟨r, hr1, hr2, Or.inr (Or.inr (Or.inl h3))⟩
              · exact ⟨r, hr1, hr2, Or.inr (Or.inr (Or.inr ⟨_, _, h3⟩))⟩
        · have hsplit : sentOf (ChatAct.write ⟨.error timeoutMessage, st.ended, false⟩
              :: (dl ++ dt))
              = sentOf [ChatAct.write ⟨.error timeoutMessage, st.ended, false⟩]
                ++ (sentOf dl ++ sentOf dt) := by
            rw [← sentOf_append, ← sentOf_append]
            rfl
          rw [hsplit, sentOf_write, hDL, hDT]
          cases hse : st.ended <;> simp
        · intro x hx
          simp at hx
        · cases hse : st.ended <;> simp
        · intro h
          have hsplit : sentOf (ChatAct.write ⟨.error timeoutMessage, st.ended, false⟩
              :: (dl ++ dt))
              = sentOf [ChatAct.write ⟨.error timeoutMessage, st.ended, false⟩]
                ++ (sentOf dl ++ sentOf dt) := by
            rw [← sentOf_append, ← sentOf_append]
            rfl
          rw [hsplit, sentOf_write, hDL, hDT, h]
          simp

theorem runChat_eq (message : String) (hist : List JVal) (model : String)
    (retrieval : Except String (List String)) (genErr : Option String)
    (chunks : List (Option String)) (midErr : Option String)
    (s0 s1 : List ExtEv) (sc : List (List ExtEv)) (sEnd : List ExtEv) :
    runChat message hist model retrieval genErr chunks midErr s0 s1 sc sEnd
      = runTail
          (llmCallAct
            (resWrite
              (if (retrievedOf retrieval).length > 0
               then resWrite (pauseF true {} s0) (.docs (retrievedOf retrieval))
               else pauseF true {} s0)
              (.modelInfo model))
            model
            (buildMessages (retrievedOf retrieval) hist (jsTake (jsTrim message) 4000)))
          (retrievedOf retrieval).length genErr chunks midErr s1 sc sEnd := rfl

/-- Global shape of everything the `POST /chat` handler body does: an
optional timeout write from the retrieval await, then the conditional
`docs` write and the `model_info` write (both sharing the flags of that
moment), then the single completion call, then the tail writes
characterized by `runTail_spec`. -/
theorem runChat_acts_spec (message : String) (hist : List JVal) (model : String)
    (retrieval : Except String (List String)) (genErr : Option String)
    (chunks : List (Option String)) (midErr : Option String)
    (s0 s1 : List ExtEv) (sc : List (List ExtEv)) (sEnd : List ExtEv) :
    ∃ (p d : List ChatAct) (e0 dis0 : Bool) (S T : List ChatEv),
      (runChat message hist model retrieval genErr chunks midErr s0 s1 sc sEnd).acts
        = p ++ (if (retrievedOf retrieval).length > 0
                then [ChatAct.write ⟨.docs (retrievedOf retrieval), e0, dis0⟩] else [])
            ++ [ChatAct.write ⟨.modelInfo model, e0, dis0⟩,
                ChatAct.llmCall model
                  (buildMessages (retrievedOf retrieval) hist (jsTake (jsTrim message) 4000))]
            ++ d
      ∧ ((p = [] ∧ e0 = false)
         ∨ (p = [ChatAct.write ⟨.error timeoutMessage, false, false⟩] ∧ e0 = true))
      ∧ (∀ a ∈ d, ∃ r : WriteRec, a = .write r ∧ r.disconnectedAtWrite = false
            ∧ (isStreamEv r.ev = true ∨ r.ev = .error timeoutMessage
               ∨ r.ev = .error genericErrorMessage ∨ ∃ n m, r.ev = .done n m))
      ∧ sentOf d = S ++ T
      ∧ (∀ e ∈ S, isStreamEv e = true)
      ∧ (T = [] ∨ T = [.error timeoutMessage] ∨ T = [.error genericErrorMessage]
         ∨ ∃ n m, T = [.done n m])
      ∧ (e0 = true → sentOf d = []) := by
  rw [runChat_eq]
  obtain ⟨d, S, T, ht1, ht2, ht3, ht4, ht5, ht6⟩ :=
    runTail_spec
      (llmCallAct
        (resWrite
          (if (retrievedOf retrieval).length > 0
           then resWrite (pauseF true {} s0) (.docs (retrievedOf retrieval))
           else pauseF true {} s0)
          (.modelInfo model))
        model
        (buildMessages (retrievedOf retrieval) hist (jsTake (jsTrim message) 4000)))
      (retrievedOf retrieval).length genErr chunks midErr s1 sc sEnd
  have hb : (if (retrievedOf retrieval).length > 0
      then resWrite (pauseF true {} s0) (.docs (retrievedOf retrieval))
      else pauseF true {} s0).acts
      = (pauseF true {} s0).acts
        ++ (if (retrievedOf retrieval).length > 0
            then [ChatAct.write ⟨.docs (retrievedOf retrieval),
              (pauseF true {} s0).ended, (pauseF true {} s0).disconnected⟩] else []) := by
    by_cases hdocs : (retrievedOf retrieval).length > 0
    · rw [if_pos hdocs, if_pos hdocs]
      simp [resWrite]
    · rw [if_neg hdocs, if_neg hdocs]
      simp
  have hbe : (if (retrievedOf retrieval).length > 0
      then resWrite (pauseF true {} s0) (.docs (retrievedOf retrieval))
      else pauseF true {} s0).ended = (pauseF true {} s0).ended := by
    by_cases hdocs : (retrievedOf retrieval).length > 0
    · rw [if_pos hdocs]
      rfl
    · rw [if_neg hdocs]
  have hbd : (if (retrievedOf retrieval).length > 0
      then resWrite (pauseF true {} s0) (.docs (retrievedOf retrieval))
      else pauseF true {} s0).disconnected = (pauseF true {} s0).disconnected := by
    by_cases hdocs : (retrievedOf retrieval).length > 0
    · rw [if_pos hdocs]
      rfl
    · rw [if_neg hdocs]
  have hst3acts : (llmCallAct
      (resWrite
        (if (retrievedOf retrieval).length > 0
         then resWrite (pauseF true {} s0) (.docs (retrievedOf retrieval))
         else pauseF true {} s0)
        (.modelInfo model))
      model
      (buildMessages (retrievedOf retrieval) hist (jsTake (jsTrim message) 4000))).acts
      = (pauseF true {} s0).acts
        ++ (if (retrievedOf retrieval).length > 0
            then [ChatAct.write ⟨.docs (retrievedOf retrieval),
              (pauseF true {} s0).ended, (pauseF true {} s0).disconnected⟩] else [])
        ++ [ChatAct.write ⟨.modelInfo model,
              (pauseF true {} s0).ended, (pauseF true {} s0).disconnected⟩,
            ChatAct.llmCall model
              (buildMessages (retrievedOf retrieval) hist (jsTake (jsTrim message) 4000))] := by
    show ((if (retrievedOf retrieval).length > 0
          then resWrite (pauseF true {} s0) (.docs (retrievedOf retrieval))
          else pauseF true {} s0).acts
        ++ [ChatAct.write ⟨.modelInfo model,
              (if (retrievedOf retrieval).length > 0
               then resWrite (pauseF true {} s0) (.docs (retrievedOf retrieval))
               else pauseF true {} s0).ended,
              (if (retrievedOf retrieval).length > 0
               then resWrite (pauseF true {} s0) (.docs (retrievedOf retrieval))
               else pauseF true {} s0).disconnected⟩])
        ++ [ChatAct.llmCall model
              (buildMessages (retrievedOf retrieval) hist (jsTake (jsTrim message) 4000))]
      = _
    rw [hb, hbe, hbd]
    simp [List.append_assoc]
  have hst3e : (llmCallAct
      (resWrite
        (if (retrievedOf retrieval).length > 0
         then resWrite (pauseF true {} s0) (.docs (retrievedOf retrieval))
         else pauseF true {} s0)
        (.modelInfo model))
      model
      (buildMessages (retrievedOf retrieval) hist (jsTake (jsTrim message) 4000))).ended
      = (pauseF true {} s0).ended := by
    show (if (retrievedOf retrieval).length > 0
        then resWrite (pauseF true {} s0) (.docs (retrievedOf retrieval))
        else pauseF true {} s0).ended = _
    exact hbe
  rcases pauseF_spec true s0 {} with ⟨hp1, hp2⟩ | ⟨hp1, hp2⟩
  · refine ⟨[], d, false, (pauseF true {} s0).disconnected, S, T, ?_, Or.inl ⟨rfl, rfl⟩,
      ht2, ht3, ht4, ht5, ?_⟩
    · rw [ht1, hst3acts, hp1, hp2]
    · intro h
      cases h
  · refine ⟨[ChatAct.write ⟨.error timeoutMessage, false, false⟩], d, true,
      (pauseF true {} s0).disconnected, S, T, ?_, Or.inr ⟨rfl, rfl⟩,
      ht2, ht3, ht4, ht5, ?_⟩
    · rw [ht1, hst3acts, hp1, hp2]
      simp
    · intro _
      exact ht6 (hst3e.trans hp2)

/-- The events `POST /chat` actually serializes: either the bare timeout
error (timer fired during the retrieval await), or an optional `docs`
event, the `model_info` event, a run of `stream` events and at most one
terminal event. -/
theorem runChat_sent_spec (message : String) (hist : List JVal) (model : String)
    (retrieval : Except String (List String)) (genErr : Option String)
    (chunks : List (Option String)) (midErr : Option String)
    (s0 s1 : List ExtEv) (sc : List (List ExtEv)) (sEnd : List ExtEv) :
    sentTrace (runChat message hist model retrieval genErr chunks midErr s0 s1 sc sEnd)
        = [ChatEv.error timeoutMessage]
    ∨ ∃ (D S T : List ChatEv),
        sentTrace (runChat message hist model retrieval genErr chunks midErr s0 s1 sc sEnd)
          = D ++ ChatEv.modelInfo model :: (S ++ T)
        ∧ (D = [] ∨ D = [.docs (retrievedOf retrieval)])
        ∧ (∀ e ∈ S, isStreamEv e = true)
        ∧ (T = [] ∨ T = [.error timeoutMessage] ∨ T = [.error genericErrorMessage]
           ∨ ∃ n m, T = [.done n m]) := by
  obtain ⟨p, d, e0, dis0, S, T, h1, h2, h3, h4, h5, h6, h7⟩ :=
    runChat_acts_spec message hist model retrieval genErr chunks midErr s0 s1 sc sEnd
  have hsent : sentTrace (runChat message hist model retrieval genErr chunks midErr s0 s1 sc sEnd)
      = sentOf p
        ++ sentOf (if (retrievedOf retrieval).length > 0
            then [ChatAct.write ⟨.docs (retrievedOf retrieval), e0, dis0⟩] else [])
        ++ sentOf [ChatAct.write ⟨.modelInfo model, e0, dis0⟩,
            ChatAct.llmCall model
              (buildMessages (retrievedOf retrieval) hist (jsTake (jsTrim message) 4000))]
        ++ sentOf d := by
    rw [sentTrace, h1, sentOf_append, sentOf_append, sentOf_append]
  rcases h2 with ⟨hp, he⟩ | ⟨hp, he⟩
  · subst hp he
    right
    refine ⟨if (retrievedOf retrieval).length > 0
        then [ChatEv.docs (retrievedOf retrieval)] else [], S, T, ?_, ?_, h5, h6⟩
    · rw [hsent, h4]
      have hmi : sentOf [ChatAct.write ⟨.modelInfo model, false, dis0⟩,
          ChatAct.llmCall model
            (buildMessages (retrievedOf retrieval) hist (jsTake (jsTrim message) 4000))]
          = [ChatEv.modelInfo model] := by
        simp [sentOf]
      have hdocs : sentOf (if (retrievedOf retrieval).length > 0
          then [ChatAct.write ⟨.docs (retrievedOf retrieval), false, dis0⟩] else [])
          = (if (retrievedOf retrieval).length > 0
             then [ChatEv.docs (retrievedOf retrieval)] else []) := by
        by_cases hc : (retrievedOf retrieval).length > 0
        · rw [if_pos hc, if_pos hc, sentOf_write]
          rfl
        · rw [if_neg hc, if_neg hc]
          rfl
      rw [hmi, hdocs, sentOf_nil]
      simp
    · by_cases hc : (retrievedOf retrieval).length > 0
      · rw [if_pos hc]
        exact Or.inr rfl
      · rw [if_neg hc]
        exact Or.inl rfl
  · subst hp he
    left
    rw [hsent, h7 rfl]
    have hmi : sentOf [ChatAct.write ⟨.modelInfo model, true, dis0⟩,
        ChatAct.llmCall model
          (buildMessages (retrievedOf retrieval) hist (jsTake (jsTrim message) 4000))]
        = [] := by
      simp [sentOf]
    have hdocs : sentOf (if (retrievedOf retrieval).length > 0
        then [ChatAct.write ⟨.docs (retrievedOf retrieval), true, dis0⟩] else [])
        = [] := by
      by_cases hc : (retrievedOf retrieval).length > 0
      · rw [if_pos hc, sentOf_write]
        rfl
      · rw [if_neg hc]
        rfl
    rw [hmi, hdocs, sentOf_write]
    rfl

/-! Grammar helpers. -/

theorem isStream_not_terminal (e : ChatEv) (h : isStreamEv e = true) :
    isTerminalEv e = false := by
  cases e <;> simp_all [isStreamEv, isTerminalEv]

theorem tailGrammar_append_streams (S T : List ChatEv)
    (hS : ∀ e ∈ S, isStreamEv e = true) :
    tailGrammar (S ++ T) = tailGrammar T := by
  induction S with
  | nil => rfl
  | cons e S ih =>
    have he : isStreamEv e = true := hS e (List.mem_cons_self e S)
    have hstep : tailGrammar ((e :: S) ++ T) = tailGrammar (S ++ T) := by
      simp [tailGrammar, he]
    rw [hstep, ih (fun x hx => hS x (List.mem_cons_of_mem e hx))]

theorem tailGrammar_terminal (T : List ChatEv)
    (hT : T = [] ∨ T = [.error timeoutMessage] ∨ T = [.error genericErrorMessage]
      ∨ ∃ n m, T = [.done n m]) :
    tailGrammar T = true := by
  rcases hT with h | h | h | ⟨n, m, h⟩ <;> subst h <;>
    simp [tailGrammar, isStreamEv, isTerminalEv]

theorem chatGrammar_full (D : List ChatEv) (m : String) (rest : List ChatEv)
    (ds : List String) (hD : D = [] ∨ D = [.docs ds]) :
    chatGrammar (D ++ ChatEv.modelInfo m :: rest) = tailGrammar rest := by
  rcases hD with h | h <;> subst h <;>
    simp [chatGrammar, isDocsEv, isModelInfoEv]

theorem chatGrammar_timeout_only :
    chatGrammar [ChatEv.error timeoutMessage] = true := rfl

theorem naet_cons_nonterm (e : ChatEv) (l : List ChatEv) (h : isTerminalEv e = false) :
    noEventAfterTerminal (e :: l) = noEventAfterTerminal l := by
  simp [noEventAfterTerminal, h]

theorem naet_append_streams (S l : List ChatEv) (hS : ∀ e ∈ S, isStreamEv e = true) :
    noEventAfterTerminal (S ++ l) = noEventAfterTerminal l := by
  induction S with
  | nil => rfl
  | cons e S ih =>
    have he := isStream_not_terminal e (hS e (List.mem_cons_self e S))
    rw [List.cons_append, naet_cons_nonterm e _ he,
      ih (fun x hx => hS x (List.mem_cons_of_mem e hx))]

theorem naet_terminal (T : List ChatEv)
    (hT : T = [] ∨ T = [.error timeoutMessage] ∨ T = [.error genericErrorMessage]
      ∨ ∃ n m, T = [.done n m]) :
    noEventAfterTerminal T = true := by
  rcases hT with h | h | h | ⟨n, m, h⟩ <;> subst h <;>
    simp [noEventAfterTerminal, isTerminalEv]

theorem count_timeout_terminal (T : List ChatEv)
    (hT : T = [] ∨ T = [.error timeoutMessage] ∨ T = [.error genericErrorMessage]
      ∨ ∃ n m, T = [.done n m]) :
    T.count (ChatEv.error timeoutMessage) ≤ 1 := by
  rcases hT with h | h | h | ⟨n, m, h⟩ <;> subst h
  · simp
  · simp
  · have hne : (ChatEv.error timeoutMessage) ∉ [ChatEv.error genericErrorMessage] := by
      decide
    simp [List.count_eq_zero.mpr hne]
  · have hne : (ChatEv.error timeoutMessage) ∉ [ChatEv.done n m] := by
      simp
    simp [List.count_eq_zero.mpr hne]

theorem count_timeout_streams (S : List ChatEv) (hS : ∀ e ∈ S, isStreamEv e = true) :
    S.count (ChatEv.error timeoutMessage) = 0 := by
  rw [List.count_eq_zero]
  intro hmem
  have := hS _ hmem
  simp [isStreamEv] at this

theorem errPayloadFixed_of_stream (e : ChatEv) (h : isStreamEv e = true) :
    errPayloadFixed e = true := by
  cases e <;> simp_all [isStreamEv, errPayloadFixed]

theorem writes_eq (st : ChatSt) :
    writes st = st.acts.filterMap fun a =>
      match a with
      | .write r => some r
      | .llmCall _ _ => none := rfl

theorem mem_writes_iff (st : ChatSt) (r : WriteRec) :
    r ∈ writes st ↔ ChatAct.write r ∈ st.acts := by
  rw [writes_eq, List.mem_filterMap]
  constructor
  · rintro ⟨a, ha, hfa⟩
    match a, hfa with
    | .write r2, hfa =>
      have : r2 = r := by simpa using hfa
      subst this
      exact ha
  · intro h
    exact ⟨ChatAct.write r, h, rfl⟩

/-- Every `stream`, `done` or `error` write of the `POST /chat` handler
happens while the client is still connected (the `clientDisconnected`
guards of the source); only the `docs` and `model_info` writes are
unguarded. -/
theorem runChat_guarded_writes (message : String) (hist : List JVal) (model : String)
    (retrieval : Except String (List String)) (genErr : Option String)
    (chunks : List (Option String)) (midErr : Option String)
    (s0 s1 : List ExtEv) (sc : List (List ExtEv)) (sEnd : List ExtEv) :
    ∀ r ∈ writes (runChat message hist model retrieval genErr chunks midErr s0 s1 sc sEnd),
      (isStreamEv r.ev = true ∨ isTerminalEv r.ev = true) → r.disconnectedAtWrite = false := by
  obtain ⟨p, d, e0, dis0, S, T, h1, h2, h3, h4, h5, h6, h7⟩ :=
    runChat_acts_spec message hist model retrieval genErr chunks midErr s0 s1 sc sEnd
  intro r hr hkind
  rw [mem_writes_iff, h1] at hr
  simp only [List.mem_append, List.mem_cons] at hr
  rcases hr with ((hp | hdocs) | hmi | hllm | hfalse) | hd
  · rcases h2 with ⟨hpe, _⟩ | ⟨hpe, _⟩
    · rw [hpe] at hp
      simp at hp
    · rw [hpe] at hp
      simp only [List.mem_singleton, ChatAct.write.injEq] at hp
      subst hp
      rfl
  · by_cases hc : (retrievedOf retrieval).length > 0
    · rw [if_pos hc] at hdocs
      simp only [List.mem_singleton, ChatAct.write.injEq] at hdocs
      subst hdocs
      rcases hkind with h | h <;> simp [isStreamEv, isTerminalEv] at h
    · rw [if_neg hc] at hdocs
      simp at hdocs
  · simp only [ChatAct.write.injEq] at hmi
    subst hmi
    rcases hkind with h | h <;> simp [isStreamEv, isTerminalEv] at h
  · cases hllm
  · cases hfalse
  · obtain ⟨r2, hr2, hdisc, _⟩ := h3 _ hd
    simp only [ChatAct.write.injEq] at hr2
    subst hr2
    exact hdisc

/-- Every `error` event `POST /chat` ever writes carries one of the two
fixed messages (timeout or the generic failure text). -/
theorem runChat_err_payloads (message : String) (hist : List JVal) (model : String)
    (retrieval : Except String (List String)) (genErr : Option String)
    (chunks : List (Option String)) (midErr : Option String)
    (s0 s1 : List ExtEv) (sc : List (List ExtEv)) (sEnd : List ExtEv) :
    ∀ r ∈ writes (runChat message hist model retrieval genErr chunks midErr s0 s1 sc sEnd),
      errPayloadFixed r.ev = true := by
  obtain ⟨p, d, e0, dis0, S, T, h1, h2, h3, h4, h5, h6, h7⟩ :=
    runChat_acts_spec message hist model retrieval genErr chunks midErr s0 s1 sc sEnd
  intro r hr
  rw [mem_writes_iff, h1] at hr
  simp only [List.mem_append, List.mem_cons] at hr
  rcases hr with ((hp | hdocs) | hmi | hllm | hfalse) | hd
  · rcases h2 with ⟨hpe, _⟩ | ⟨hpe, _⟩
    · rw [hpe] at hp
      simp at hp
    · rw [hpe] at hp
      simp only [List.mem_singleton, ChatAct.write.injEq] at hp
      subst hp
      simp [errPayloadFixed]
  · by_cases hc : (retrievedOf retrieval).length > 0
    · rw [if_pos hc] at hdocs
      simp only [List.mem_singleton, ChatAct.write.injEq] at hdocs
      subst hdocs
      simp [errPayloadFixed]
    · rw [if_neg hc] at hdocs
      simp at hdocs
  · simp only [ChatAct.write.injEq] at hmi
    subst hmi
    simp [errPayloadFixed]
  · cases hllm
  · cases hfalse
  · obtain ⟨r2, hr2, _, hkinds⟩ := h3 _ hd
    simp only [ChatAct.write.injEq] at hr2
    subst hr2
    rcases hkinds with h | h | h | ⟨n, m, h⟩
    · exact errPayloadFixed_of_stream _ h
    · rw [h]
      simp [errPayloadFixed]
    · rw [h]
      simp [errPayloadFixed]
    · rw [h]
      simp [errPayloadFixed]

theorem dropWhile_append_of_all {α : Type} (q : α → Bool) (l1 l2 : List α)
    (h : ∀ a ∈ l1, q a = true) :
    (l1 ++ l2).dropWhile q = l2.dropWhile q := by
  induction l1 with
  | nil => rfl
  | cons a l ih =>
    rw [List.cons_append, List.dropWhile_cons, if_pos (h a (List.mem_cons_self a l))]
    exact ih (fun x hx => h x (List.mem_cons_of_mem a hx))

theorem isDocsEv_false_of_kinds (e : ChatEv)
    (h : isStreamEv e = true ∨ e = .error timeoutMessage
      ∨ e = .error genericErrorMessage ∨ ∃ n m, e = .done n m) :
    isDocsEv e = false := by
  rcases h with h | h | h | ⟨n, m, h⟩
  · cases e <;> simp_all [isStreamEv, isDocsEv]
  · rw [h]; rfl
  · rw [h]; rfl
  · rw [h]; rfl

/-- The `docs` write, when present, precedes the completion call: after
the first completion call no `docs` write ever occurs. -/
theorem runChat_docs_before_llm (message : String) (hist : List JVal) (model : String)
    (retrieval : Except String (List String)) (genErr : Option String)
    (chunks : List (Option String)) (midErr : Option String)
    (s0 s1 : List ExtEv) (sc : List (List ExtEv)) (sEnd : List ExtEv) :
    (((runChat message hist model retrieval genErr chunks midErr s0 s1 sc sEnd).acts.dropWhile
        (fun a => !a.isLlm)).all (fun a => !a.isDocsWrite)) = true := by
  obtain ⟨p, d, e0, dis0, S, T, h1, h2, h3, h4, h5, h6, h7⟩ :=
    runChat_acts_spec message hist model retrieval genErr chunks midErr s0 s1 sc sEnd
  have hsplit : (runChat message hist model retrieval genErr chunks midErr s0 s1 sc sEnd).acts
      = (p ++ (if (retrievedOf retrieval).length > 0
              then [ChatAct.write ⟨.docs (retrievedOf retrieval), e0, dis0⟩] else [])
          ++ [ChatAct.write ⟨.modelInfo model, e0, dis0⟩])
        ++ (ChatAct.llmCall model
              (buildMessages (retrievedOf retrieval) hist (jsTake (jsTrim message) 4000)) :: d) := by
    rw [h1]
    simp [List.append_assoc]
  rw [hsplit, dropWhile_append_of_all]
  · have hdrop : (ChatAct.llmCall model
        (buildMessages (retrievedOf retrieval) hist (jsTake (jsTrim message) 4000)) :: d).dropWhile
          (fun a => !a.isLlm)
        = ChatAct.llmCall model
            (buildMessages (retrievedOf retrieval) hist (jsTake (jsTrim message) 4000)) :: d := by
      rw [List.dropWhile_cons]
      simp [ChatAct.isLlm]
    rw [hdrop, List.all_eq_true]
    intro a ha
    rcases List.mem_cons.mp ha with h | h
    · subst h
      rfl
    · obtain ⟨r, hr, _, hkinds⟩ := h3 a h
      subst hr
      simp only [ChatAct.isDocsWrite]
      rw [isDocsEv_false_of_kinds r.ev hkinds]
      rfl
  · intro a ha
    simp only [List.mem_append] at ha
    rcases ha with (ha | ha) | ha
    · rcases h2 with ⟨hpe, _⟩ | ⟨hpe, _⟩ <;> rw [hpe] at ha
      · simp at ha
      · simp only [List.mem_singleton] at ha
        subst ha
        rfl
    · by_cases hc : (retrievedOf retrieval).length > 0
      · rw [if_pos hc] at ha
        simp only [List.mem_singleton] at ha
        subst ha
        rfl
      · rw [if_neg hc] at ha
        simp at ha
    · simp only [List.mem_singleton] at ha
      subst ha
      rfl

/-- The `docs` write calls of the handler: exactly one, carrying the
retrieved chunks, when at least one chunk was retrieved; none otherwise. -/
theorem runChat_docs_filter (message : String) (hist : List JVal) (model : String)
    (retrieval : Except String (List String)) (genErr : Option String)
    (chunks : List (Option String)) (midErr : Option String)
    (s0 s1 : List ExtEv) (sc : List (List ExtEv)) (sEnd : List ExtEv) :
    (callTrace (runChat message hist model retrieval genErr chunks midErr s0 s1 sc sEnd)).filter
        isDocsEv
      = if (retrievedOf retrieval).length > 0
        then [ChatEv.docs (retrievedOf retrieval)] else [] := by
  obtain ⟨p, d, e0, dis0, S, T, h1, h2, h3, h4, h5, h6, h7⟩ :=
    runChat_acts_spec message hist model retrieval genErr chunks midErr s0 s1 sc sEnd
  have hct : callTrace (runChat message hist model retrieval genErr chunks midErr s0 s1 sc sEnd)
      = ((p ++ (if (retrievedOf retrieval).length > 0
              then [ChatAct.write ⟨.docs (retrievedOf retrieval), e0, dis0⟩] else [])
          ++ [ChatAct.write ⟨.modelInfo model, e0, dis0⟩,
              ChatAct.llmCall model
                (buildMessages (retrievedOf retrieval) hist (jsTake (jsTrim message) 4000))]
          ++ d).filterMap fun a =>
            match a with
            | .write r => some r
            | .llmCall _ _ => none).map (·.ev) := by
    rw [callTrace, writes_eq, h1]
  rw [hct]
  rw [List.filterMap_append, List.filterMap_append, List.filterMap_append,
    List.map_append, List.map_append, List.map_append,
    List.filter_append, List.filter_append, List.filter_append]
  have hp' : ((p.filterMap fun a =>
      match a with
      | ChatAct.write r => some r
      | ChatAct.llmCall _ _ => none).map (·.ev)).filter isDocsEv = [] := by
    rcases h2 with ⟨hpe, _⟩ | ⟨hpe, _⟩ <;> rw [hpe] <;> rfl
  have hdocs' : (((if (retrievedOf retrieval).length > 0
      then [ChatAct.write ⟨.docs (retrievedOf retrieval), e0, dis0⟩]
      else ([] : List ChatAct)).filterMap fun a =>
        match a with
        | ChatAct.write r => some r
        | ChatAct.llmCall _ _ => none).map (·.ev)).filter isDocsEv
      = if (retrievedOf retrieval).length > 0
        then [ChatEv.docs (retrievedOf retrieval)] else [] := by
    by_cases hc : (retrievedOf retrieval).length > 0
    · rw [if_pos hc, if_pos hc]
      rfl
    · rw [if_neg hc, if_neg hc]
      rfl
  have hmi' : (([ChatAct.write ⟨ChatEv.modelInfo model, e0, dis0⟩,
      ChatAct.llmCall model
        (buildMessages (retrievedOf retrieval) hist (jsTake (jsTrim message) 4000))].filterMap fun a =>
        match a with
        | ChatAct.write r => some r
        | ChatAct.llmCall _ _ => none).map (·.ev)).filter isDocsEv = [] := rfl
  have hd' : ((d.filterMap fun a =>
      match a with
      | ChatAct.write r => some r
      | ChatAct.llmCall _ _ => none).map (·.ev)).filter isDocsEv = [] := by
    rw [List.filter_eq_nil_iff]
    intro e he
    rw [List.mem_map] at he
    obtain ⟨r, hr, hev⟩ := he
    rw [List.mem_filterMap] at hr
    obtain ⟨a, ha, hfa⟩ := hr
    obtain ⟨r2, hr2, _, hkinds⟩ := h3 a ha
    subst hr2
    have hrr : r2 = r := by simpa using hfa
    rw [hrr] at hkinds
    subst hev
    rw [isDocsEv_false_of_kinds r.ev hkinds]
    simp
  rw [hp', hdocs', hmi', hd']
  simp

theorem llmCallsOf_eq (st : ChatSt) :
    llmCallsOf st = st.acts.filterMap fun a =>
      match a with
      | .llmCall m ms => some (m, ms)
      | .write _ => none := rfl

/-- The handler issues exactly one completion call: the validated model
and the assembled message list (system prompt, sliced history, sanitized
user message). -/
theorem runChat_llmCalls (message : String) (hist : List JVal) (model : String)
    (retrieval : Except String (List String)) (genErr : Option String)
    (chunks : List (Option String)) (midErr : Option String)
    (s0 s1 : List ExtEv) (sc : List (List ExtEv)) (sEnd : List ExtEv) :
    llmCallsOf (runChat message hist model retrieval genErr chunks midErr s0 s1 sc sEnd)
      = [(model, buildMessages (retrievedOf retrieval) hist (jsTake (jsTrim message) 4000))] := by
  obtain ⟨p, d, e0, dis0, S, T, h1, h2, h3, h4, h5, h6, h7⟩ :=
    runChat_acts_spec message hist model retrieval genErr chunks midErr s0 s1 sc sEnd
  rw [llmCallsOf_eq, h1, List.filterMap_append, List.filterMap_append, List.filterMap_append]
  have hp' : (p.filterMap fun a =>
      match a with
      | ChatAct.llmCall m ms => some (m, ms)
      | ChatAct.write _ => none) = [] := by
    rcases h2 with ⟨hpe, _⟩ | ⟨hpe, _⟩ <;> rw [hpe] <;> rfl
  have hdocs' : ((if (retrievedOf retrieval).length > 0
      then [ChatAct.write ⟨.docs (retrievedOf retrieval), e0, dis0⟩]
      else ([] : List ChatAct)).filterMap fun a =>
        match a with
        | ChatAct.llmCall m ms => some (m, ms)
        | ChatAct.write _ => none) = [] := by
    by_cases hc : (retrievedOf retrieval).length > 0
    · rw [if_pos hc]
      rfl
    · rw [if_neg hc]
      rfl
  have hd' : (d.filterMap fun a =>
      match a with
      | ChatAct.llmCall m ms => some (m, ms)
      | ChatAct.write _ => none) = [] := by
    rw [List.filterMap_eq_nil_iff]
    intro a ha
    obtain ⟨r, hr, _, _⟩ := h3 a ha
    subst hr
    rfl
  rw [hp', hdocs', hd']
  rfl

theorem string_len_zero_beq (t : String) : (t.length == 0) = (t == "") := by
  cases h : t == ""
  · have hne : ¬ t = "" := by simpa using h
    cases hl : t.length with
    | zero =>
      exfalso
      apply hne
      cases t with
      | mk data =>
        cases data with
        | nil => rfl
        | cons c cs => simp [String.length] at hl
    | succ n => rfl
  · have heq : t = "" := by simpa using h
    subst heq
    rfl

theorem blank_eq (s : String) :
    (!(s != "") || ((jsTrim s).length == 0)) = (jsTrim s == "") := by
  cases h : s == ""
  · have hne : (s != "") = true := by simp [bne, h]
    rw [hne]
    simp only [Bool.not_true, Bool.false_or]
    exact string_len_zero_beq (jsTrim s)
  · have heq : s = "" := by simpa using h
    subst heq
    decide

theorem lookup_keys_contains (l : List (String × ModelCfg)) (s : String) :
    (l.lookup s).isSome = ((l.map Prod.fst).contains s) := by
  induction l with
  | nil => rfl
  | cons kv l ih =>
    rcases kv with ⟨k, v⟩
    cases h : s == k <;>
      simp [List.lookup, h, List.contains, List.elem, ih]

theorem hist_part (ch : JVal) :
    (!(jisArray (match ch with | .undef => JVal.jarr [] | v => v))
      || ((jarrVal (match ch with | .undef => JVal.jarr [] | v => v)).length > 20 : Bool))
    = (match ch with
       | .undef => false
       | .jarr l => (l.length > 20 : Bool)
       | _ => true) := by
  rcases ch with _ | _ | b | n | s | l | f <;> rfl

/-- The source's model guard, over an arbitrary property key: the read
succeeds exactly when the key is an own key of the allow-list or an
inherited `Object.prototype` member. -/
theorem model_access_eq (k : String) (msg : String) (histL : List JVal) :
    (if (AVAILABLE_MODELS.lookup k).isSome || OBJECT_PROTOTYPE_KEYS.contains k then
      (Except.ok (msg, histL, k) : Except String (String × List JVal × String))
    else Except.error ("Invalid model selection")).isOk
    = ((AVAILABLE_MODELS.map Prod.fst).contains k || OBJECT_PROTOTYPE_KEYS.contains k) := by
  rw [← lookup_keys_contains]
  cases h : ((AVAILABLE_MODELS.lookup k).isSome || OBJECT_PROTOTYPE_KEYS.contains k)
  · rfl
  · rfl

theorem model_part (mo : JVal) (msg : String) (histL : List JVal) :
    (if (AVAILABLE_MODELS.lookup (modelKey
          (match mo with | .undef => JVal.jstr DEFAULT_MODEL | v => v))).isSome
        || OBJECT_PROTOTYPE_KEYS.contains (modelKey
          (match mo with | .undef => JVal.jstr DEFAULT_MODEL | v => v)) then
      (Except.ok (msg, histL, modelKey
          (match mo with | .undef => JVal.jstr DEFAULT_MODEL | v => v)) :
        Except String (String × List JVal × String))
    else Except.error ("Invalid model selection")).isOk
    = !(match mo with
        | .undef => false
        | v => !((AVAILABLE_MODELS.map Prod.fst).contains (modelKey v)
                 || OBJECT_PROTOTYPE_KEYS.contains (modelKey v))) := by
  rcases mo with _ | _ | b | n | s | l | f
  · rfl
  all_goals rw [model_access_eq, Bool.not_not]

/-- The validation of `POST /chat` accepts exactly the requests the
amended claim's condition does not reject. -/
theorem validate_isOk_eq (body : List (String × JVal)) :
    (postChatValidate body).isOk = !claimRejectsAmended body := by
  simp only [postChatValidate, claimRejectsAmended]
  generalize jgetD body ("message") = m
  generalize jgetD body ("conversationHistory") = ch
  generalize jgetD body ("model") = mo
  rcases m with _ | _ | b | n | s | l | f
  · rfl
  · rfl
  · simp [jtruthy, jisString, Except.isOk, Except.toBool]
  · simp [jtruthy, jisString, Except.isOk, Except.toBool]
  · -- message is a string
    simp only [jtruthy, jisString, jstrVal, Bool.not_true, Bool.or_false]
    rw [blank_eq s]
    by_cases h1 : jsTrim s = ""
    · have h1b : (jsTrim s == "") = true := by simpa using h1
      rw [h1b]
      simp [Except.isOk, Except.toBool]
    · have h1b : (jsTrim s == "") = false := by simpa using h1
      rw [h1b]
      rw [if_neg (by simp)]
      by_cases h2 : s.length > 4000
      · rw [if_pos h2]
        have h2b : decide (s.length > 4000) = true := by simpa using h2
        rw [h2b]
        simp [Except.isOk, Except.toBool]
      · rw [if_neg h2]
        have h2b : decide (s.length > 4000) = false := by simpa using h2
        rw [h2b]
        rw [hist_part ch]
        rcases ch with _ | _ | b3 | n3 | s3 | l3 | f3
        · rw [if_neg (by simp)]
          simp only [Bool.false_or]
          exact model_part mo s _
        · rw [if_pos (by rfl)]
          simp [Except.isOk, Except.toBool]
        · rw [if_pos (by rfl)]
          simp [Except.isOk, Except.toBool]
        · rw [if_pos (by rfl)]
          simp [Except.isOk, Except.toBool]
        · rw [if_pos (by rfl)]
          simp [Except.isOk, Except.toBool]
        · have hred : (match JVal.jarr l3 with
              | JVal.undef => false
              | JVal.jarr l => (decide (l.length > 20))
              | _ => true) = decide (l3.length > 20) := rfl
          rw [hred]
          by_cases h3 : l3.length > 20
          · have h3b : decide (l3.length > 20) = true := by simpa using h3
            rw [h3b]
            rw [if_pos (by rfl)]
            simp [Except.isOk, Except.toBool]
          · have h3b : decide (l3.length > 20) = false := by simpa using h3
            rw [h3b]
            rw [if_neg (by simp)]
            simp only [Bool.false_or]
            exact model_part mo s _
        · rw [if_pos (by rfl)]
          simp [Except.isOk, Except.toBool]
  · rfl
  · rfl

theorem specChunkCount_small (L : Nat) (h0 : L ≠ 0) (h1 : L ≤ 1000) :
    specChunkCount L = 1 := by
  unfold specChunkCount
  rw [if_neg h0]
  have hlt : (L - 200 + 799) / 800 < 2 := by
    rw [Nat.div_lt_iff_lt_mul (by norm_num : (0:Nat) < 800)]
    omega
  exact Nat.max_eq_left (Nat.lt_succ_iff.mp hlt)

theorem specChunkCount_step (L : Nat) (h : 1000 < L) :
    specChunkCount L = 1 + specChunkCount (L - 800) := by
  unfold specChunkCount
  rw [if_neg (by omega), if_neg (by omega)]
  have he : L - 200 + 799 = (L - 800 - 200 + 799) + 800 := by omega
  rw [he, Nat.add_div_right _ (by norm_num : (0:Nat) < 800)]
  have hge : 1 ≤ (L - 800 - 200 + 799) / 800 := by
    rw [Nat.one_le_div_iff (by norm_num : (0:Nat) < 800)]
    omega
  rw [Nat.max_eq_right (by omega : 1 ≤ (L - 800 - 200 + 799) / 800 + 1),
    Nat.max_eq_right hge]
  omega

/-- The windowed splitter, in closed form: chunk `i` is the
1000-character window starting at offset `i * 800`. -/
theorem splitIntoChunks_eq_range (text : List Char) :
    splitIntoChunks 1000 200 text
      = (List.range (specChunkCount text.length)).map
          (fun i => (text.drop (i * 800)).take 1000) := by
  refine splitIntoChunks.induct 1000 200
    (fun t => splitIntoChunks 1000 200 t
      = (List.range (specChunkCount t.length)).map
          (fun i => (t.drop (i * 800)).take 1000))
    ?_ ?_ ?_ text
  · intro x hlen
    rw [splitIntoChunks, if_pos hlen, hlen]
    rfl
  · intro x hlen hsmall
    have hle : x.length ≤ 1000 := by
      rcases hsmall with h | h
      · exact h
      · omega
    rw [splitIntoChunks, if_neg hlen, if_pos (Or.inl hle)]
    rw [specChunkCount_small x.length hlen hle]
    have hone : (List.range 1).map (fun i => (x.drop (i * 800)).take 1000)
        = [x.take 1000] := rfl
    rw [hone, List.take_of_length_le hle]
  · intro x hlen hbig ih
    have hgt : 1000 < x.length := by
      rcases Nat.lt_or_ge 1000 x.length with h | h
      · exact h
      · exact absurd (Or.inl h) hbig
    rw [splitIntoChunks, if_neg hlen, if_neg hbig]
    rw [ih]
    have hdlen : (List.drop (1000 - 200) x).length = x.length - 800 := by
      rw [List.length_drop]
    rw [hdlen, specChunkCount_step x.length hgt, Nat.add_comm 1, List.range_succ_eq_map]
    rw [List.map_cons, List.map_map]
    have h0 : List.take 1000 (List.drop (0 * 800) x) = List.take 1000 x := by
      norm_num
    rw [h0]
    have hmap : (List.range (specChunkCount (x.length - 800))).map
          ((fun i => (x.drop (i * 800)).take 1000) ∘ Nat.succ)
        = (List.range (specChunkCount (x.length - 800))).map
          (fun i => ((List.drop (1000 - 200) x).drop (i * 800)).take 1000) := by
      apply List.map_congr_left
      intro a _
      show (x.drop ((a + 1) * 800)).take 1000
        = ((x.drop (1000 - 200)).drop (a * 800)).take 1000
      rw [List.drop_drop]
      have harith : (a + 1) * 800 = 1000 - 200 + a * 800 := by
        omega
      rw [harith]
    rw [hmap]

/-- Peeling one chunk off: for nonempty text the first chunk is the
first 1000 characters. -/
theorem splitIntoChunks_head (u : List Char) (h : u ≠ []) :
    ∃ cs, splitIntoChunks 1000 200 u = u.take 1000 :: cs := by
  by_cases hle : u.length ≤ 1000
  · refine ⟨[], ?_⟩
    rw [splitIntoChunks, if_neg (by simpa using h), if_pos (Or.inl hle)]
    rw [List.take_of_length_le hle]
  · refine ⟨splitIntoChunks 1000 200 (u.drop (1000 - 200)), ?_⟩
    rw [splitIntoChunks, if_neg (by simpa using h), if_neg (by omega)]

theorem take_drop_overlap (u : List Char) :
    (u.take 1000).drop 200 ++ u.drop ((u.take 1000).length) = u.drop 200 := by
  by_cases hle : u.length ≤ 1000
  · rw [List.take_of_length_le hle, List.drop_length, List.append_nil]
  · have hlen : (u.take 1000).length = 1000 := by
      rw [List.length_take]
      omega
    rw [hlen]
    conv_rhs => rw [← List.take_append_drop 1000 u]
    rw [List.drop_append_eq_append_drop, hlen]
    norm_num

/-- Round trip: gluing the chunks back together (dropping each chunk's
200-character overlap with its predecessor) reconstructs the text. -/
theorem glueChunks_split (text : List Char) :
    glueChunks 200 (splitIntoChunks 1000 200 text) = text := by
  refine splitIntoChunks.induct 1000 200
    (fun t => glueChunks 200 (splitIntoChunks 1000 200 t) = t)
    ?_ ?_ ?_ text
  · intro x hlen
    rw [splitIntoChunks, if_pos hlen]
    rw [List.length_eq_zero.mp hlen]
    rfl
  · intro x hlen hsmall
    rw [splitIntoChunks, if_neg hlen, if_pos hsmall]
    simp [glueChunks]
  · intro x hlen hbig ih
    rw [splitIntoChunks, if_neg hlen, if_neg hbig]
    have h800 : (1000 : Nat) - 200 = 800 := rfl
    rw [h800] at ih ⊢
    have hgt : 1000 < x.length := by
      rcases Nat.lt_or_ge 1000 x.length with h | h
      · exact h
      · exact absurd (Or.inl h) hbig
    have hne : x.drop 800 ≠ [] := by
      intro hcontra
      have hlc := congrArg List.length hcontra
      rw [List.length_drop] at hlc
      simp only [List.length_nil] at hlc
      omega
    obtain ⟨cs, hcs⟩ := splitIntoChunks_head (x.drop 800) hne
    rw [hcs]
    show x.take 1000
        ++ (((x.drop 800).take 1000 :: cs).map (List.drop 200)).flatten = x
    rw [List.map_cons, List.flatten_cons]
    have hIH : (x.drop 800).take 1000 ++ (cs.map (List.drop 200)).flatten
        = x.drop 800 := by
      rw [hcs] at ih
      exact ih
    have hflat : (cs.map (List.drop 200)).flatten
        = (x.drop 800).drop (((x.drop 800).take 1000).length) := by
      have hcg := congrArg (List.drop (((x.drop 800).take 1000).length)) hIH
      rw [List.drop_left] at hcg
      exact hcg
    rw [hflat, take_drop_overlap (x.drop 800), List.drop_drop]
    norm_num

/-- Nothing is ever serialized after a terminal event. -/
theorem runChat_naet (message : String) (hist : List JVal) (model : String)
    (retrieval : Except String (List String)) (genErr : Option String)
    (chunks : List (Option String)) (midErr : Option String)
    (s0 s1 : List ExtEv) (sc : List (List ExtEv)) (sEnd : List ExtEv) :
    noEventAfterTerminal
      (sentTrace (runChat message hist model retrieval genErr chunks midErr s0 s1 sc sEnd))
      = true := by
  rcases runChat_sent_spec message hist model retrieval genErr chunks midErr s0 s1 sc sEnd with
    h | ⟨D, S, T, h1, h2, h3, h4⟩
  · rw [h]
    rfl
  · rw [h1]
    have hD : noEventAfterTerminal (D ++ ChatEv.modelInfo model :: (S ++ T))
        = noEventAfterTerminal (ChatEv.modelInfo model :: (S ++ T)) := by
      rcases h2 with h | h <;> subst h
      · rfl
      · exact naet_cons_nonterm (ChatEv.docs (retrievedOf retrieval))
          (ChatEv.modelInfo model :: (S ++ T)) rfl
    rw [hD, naet_cons_nonterm (ChatEv.modelInfo model) (S ++ T) rfl,
      naet_append_streams S T h3, naet_terminal T h4]

/-- At most one timeout error is ever serialized. -/
theorem runChat_count_timeout (message : String) (hist : List JVal) (model : String)
    (retrieval : Except String (List String)) (genErr : Option String)
    (chunks : List (Option String)) (midErr : Option String)
    (s0 s1 : List ExtEv) (sc : List (List ExtEv)) (sEnd : List ExtEv) :
    (sentTrace (runChat message hist model retrieval genErr chunks midErr s0 s1 sc sEnd)).count
      (ChatEv.error timeoutMessage) ≤ 1 := by
  rcases runChat_sent_spec message hist model retrieval genErr chunks midErr s0 s1 sc sEnd with
    h | ⟨D, S, T, h1, h2, h3, h4⟩
  · rw [h]
    simp
  · rw [h1, List.count_append]
    have hD : D.count (ChatEv.error timeoutMessage) = 0 := by
      rcases h2 with h | h <;> subst h
      · rfl
      · rw [List.count_eq_zero]
        simp
    have hcons : (ChatEv.modelInfo model :: (S ++ T)).count (ChatEv.error timeoutMessage)
        = (S ++ T).count (ChatEv.error timeoutMessage) := by
      rw [List.count_cons]
      simp
    rw [hD, hcons, List.count_append, count_timeout_streams S h3]
    have := count_timeout_terminal T h4
    omega

/-- The last message of the array handed to the completion call is always
the `{role: "user"}` message carrying the sanitized text. -/
theorem lastUserContent_buildMessages (docs : List String) (hist : List JVal) (san : String) :
    lastUserContent (buildMessages docs hist san) = some san := by
  have h1 : (buildMessages docs hist san).getLast? = some (roleContent ("user") san) := by
    show (roleContent ("system") (SYSTEM_PROMPT docs)
        :: (hist.drop (hist.length - 10) ++ [roleContent ("user") san])).getLast? = _
    rw [← List.cons_append, List.getLast?_concat]
  unfold lastUserContent
  rw [h1]
  rfl

/-! ### The claims -/

/-- C1: for every chat request that passes validation, the sequence of SSE
events serialized onto the response is a prefix of the grammar
`[docs?] [model_info?] stream* (done|error)` — zero-or-one `docs` first,
then zero-or-one `model_info`, then `stream` events, then at most one
terminal `done`/`error` — and no event of any kind follows a terminal
event, over every retrieval outcome, generation outcome, token sequence
and schedule of client disconnects and timer firings. -/
theorem c1_sse_grammar (message : String) (hist : List JVal) (model : String)
    (retrieval : Except String (List String)) (genErr : Option String)
    (chunks : List (Option String)) (midErr : Option String)
    (s0 s1 : List ExtEv) (sc : List (List ExtEv)) (sEnd : List ExtEv) :
    chatGrammar (sentTrace (runChat message hist model retrieval genErr chunks midErr s0 s1 sc sEnd)) = true
    ∧ noEventAfterTerminal (sentTrace (runChat message hist model retrieval genErr chunks midErr s0 s1 sc sEnd)) = true := by
  refine ⟨?_, runChat_naet message hist model retrieval genErr chunks midErr s0 s1 sc sEnd⟩
  rcases runChat_sent_spec message hist model retrieval genErr chunks midErr s0 s1 sc sEnd with
    h | ⟨D, S, T, h1, h2, h3, h4⟩
  · rw [h]
    exact chatGrammar_timeout_only
  · rw [h1, chatGrammar_full D model (S ++ T) (retrievedOf retrieval) h2,
      tailGrammar_append_streams S T h3, tailGrammar_terminal T h4]

/-- C2: the timeout defaults to 60,000 ms; when the timer fires with the
response not yet ended, the client still connected and the timer not
already fired, exactly one timeout `error` event is appended and the
response is ended; across every run, nothing follows a terminal event
and at most one timeout error is ever serialized. -/
theorem c2_timeout_deadline (st : ChatSt) (message : String) (hist : List JVal) (model : String)
    (retrieval : Except String (List String)) (genErr : Option String)
    (chunks : List (Option String)) (midErr : Option String)
    (s0 s1 : List ExtEv) (sc : List (List ExtEv)) (sEnd : List ExtEv)
    (harm : st.timedOut = false) (hend : st.ended = false) (hdis : st.disconnected = false) :
    CHAT_TIMEOUT_MS none = 60000
    ∧ sentOf (extStep true st ExtEv.timerFire).acts
      = sentOf st.acts ++ [ChatEv.error timeoutMessage]
    ∧ (extStep true st ExtEv.timerFire).ended = true
    ∧ noEventAfterTerminal (sentTrace (runChat message hist model retrieval genErr chunks midErr s0 s1 sc sEnd)) = true
    ∧ (sentTrace (runChat message hist model retrieval genErr chunks midErr s0 s1 sc sEnd)).count
        (ChatEv.error timeoutMessage) ≤ 1 := by
  refine ⟨rfl, ?_, ?_,
    runChat_naet message hist model retrieval genErr chunks midErr s0 s1 sc sEnd,
    runChat_count_timeout message hist model retrieval genErr chunks midErr s0 s1 sc sEnd⟩
  · rw [extStep_fire_write true st (by simp [harm]) hdis]
    show sentOf (st.acts ++ [ChatAct.write ⟨ChatEv.error timeoutMessage, st.ended, false⟩]) = _
    rw [hend, sentOf_append, sentOf_write]
    rfl
  · rw [extStep_fire_write true st (by simp [harm]) hdis]

/-- Witness for C2 at the initial handler state and a concrete request. -/
theorem c2_witness :
    CHAT_TIMEOUT_MS none = 60000
    ∧ sentOf (extStep true ({} : ChatSt) ExtEv.timerFire).acts
      = sentOf ({} : ChatSt).acts ++ [ChatEv.error timeoutMessage]
    ∧ (extStep true ({} : ChatSt) ExtEv.timerFire).ended = true
    ∧ noEventAfterTerminal (sentTrace (runChat ("hi") [] DEFAULT_MODEL (Except.ok []) none [] none [] [] [] [])) = true
    ∧ (sentTrace (runChat ("hi") [] DEFAULT_MODEL (Except.ok []) none [] none [] [] [] [])).count
        (ChatEv.error timeoutMessage) ≤ 1 :=
  c2_timeout_deadline ({} : ChatSt) ("hi") [] DEFAULT_MODEL (Except.ok []) none [] none
    [] [] [] [] rfl rfl rfl

/-- C3 (amended): after a client disconnect is observed, no `stream` event
is forwarded and no `done`/`error` event is written — every write of one
of those kinds is recorded while the client was still connected — and a
`close` event itself writes nothing.  (The `docs` and `model_info` writes
are NOT so guarded: see the counterexample.) -/
theorem c3_disconnect_guard (message : String) (hist : List JVal) (model : String)
    (retrieval : Except String (List String)) (genErr : Option String)
    (chunks : List (Option String)) (midErr : Option String)
    (s0 s1 : List ExtEv) (sc : List (List ExtEv)) (sEnd : List ExtEv) :
    ((writes (runChat message hist model retrieval genErr chunks midErr s0 s1 sc sEnd)).all
        (fun r => !(isStreamEv r.ev || isTerminalEv r.ev) || !r.disconnectedAtWrite)) = true
    ∧ ∀ (armed : Bool) (st : ChatSt), (extStep armed st ExtEv.close).acts = st.acts := by
  constructor
  · rw [List.all_eq_true]
    intro r hr
    by_cases hx : (isStreamEv r.ev || isTerminalEv r.ev) = true
    · rw [Bool.or_eq_true] at hx
      have hd := runChat_guarded_writes message hist model retrieval genErr chunks midErr
        s0 s1 sc sEnd r hr hx
      simp [hd]
    · have hx' : (isStreamEv r.ev || isTerminalEv r.ev) = false := by
        cases h : (isStreamEv r.ev || isTerminalEv r.ev)
        · rfl
        · exact absurd h hx
      rw [hx']
      rfl
  · intro armed st
    rfl

/-- Counterexample to C3 as stated: the client disconnects during the
retrieval await, yet the handler still calls `res.write` for the `docs`
and `model_info` events after the disconnect (both records carry
`disconnectedAtWrite = true`), and — `res.end()` never having been
called — both frames go out on the response. -/
theorem c3_counterexample :
    (writes (runChat ("hi") [] DEFAULT_MODEL (Except.ok [("chunk text")]) none [] none
        [ExtEv.close] [] [] [])).filter (fun r => r.disconnectedAtWrite)
      = [⟨ChatEv.docs [("chunk text")], false, true⟩,
         ⟨ChatEv.modelInfo DEFAULT_MODEL, false, true⟩]
    ∧ sentTrace (runChat ("hi") [] DEFAULT_MODEL (Except.ok [("chunk text")]) none [] none
        [ExtEv.close] [] [] [])
      = [ChatEv.docs [("chunk text")], ChatEv.modelInfo DEFAULT_MODEL] := by
  exact ⟨rfl, rfl⟩

/-- C4 (amended): a request is accepted by validation exactly when none
of the amended rejection conditions holds — message absent / not a
string / blank after trimming, message over 4000 characters,
conversationHistory not an array or over 20 entries, or the model value's
property key neither an allow-list key nor an inherited
`Object.prototype` member (the source's `!AVAILABLE_MODELS[model]` read
reaches the prototype chain, so identifiers such as `constructor` are
NOT rejected: see the counterexample); `POST /chat` answers a rejected
request with HTTP 400 and writes no SSE frame; and the user message
handed to the completion call is always the trimmed,
4000-character-truncated one. -/
theorem c4_validation_sanitization (body : List (String × JVal))
    (message : String) (hist : List JVal) (model : String)
    (retrieval : Except String (List String)) (genErr : Option String)
    (chunks : List (Option String)) (midErr : Option String)
    (s0 s1 : List ExtEv) (sc : List (List ExtEv)) (sEnd : List ExtEv) :
    (postChatValidate body).isOk = !claimRejectsAmended body
    ∧ (handlePost body retrieval genErr chunks midErr s0 s1 sc sEnd).isReject400
      = claimRejectsAmended body
    ∧ ((handlePost body retrieval genErr chunks midErr s0 s1 sc sEnd).isReject400
        && !(outcomeActs (handlePost body retrieval genErr chunks midErr s0 s1 sc sEnd)).isEmpty)
      = false
    ∧ (llmCallsOf (runChat message hist model retrieval genErr chunks midErr s0 s1 sc sEnd)).map
        (fun c => lastUserContent c.2)
      = [some (jsTake (jsTrim message) 4000)] := by
  refine ⟨validate_isOk_eq body, ?_, ?_, ?_⟩
  case _ | _ =>
    first
    | (cases hv : postChatValidate body with
       | error e =>
         have hok := validate_isOk_eq body
         rw [hv] at hok
         simp only [Except.isOk, Except.toBool] at hok
         have hcr : claimRejectsAmended body = true := by
           revert hok
           cases claimRejectsAmended body <;> simp
         have hh : handlePost body retrieval genErr chunks midErr s0 s1 sc sEnd
             = PostOutcome.badRequest 400 e := by
           unfold handlePost
           rw [hv]
         rw [hh]
         try rw [hcr]
         rfl
       | ok t =>
         obtain ⟨msg, hist0, mdl⟩ := t
         have hok := validate_isOk_eq body
         rw [hv] at hok
         simp only [Except.isOk, Except.toBool] at hok
         have hcr : claimRejectsAmended body = false := by
           revert hok
           cases claimRejectsAmended body <;> simp
         have hh : handlePost body retrieval genErr chunks midErr s0 s1 sc sEnd
             = PostOutcome.sse (runChat msg hist0 mdl retrieval genErr chunks midErr s0 s1 sc sEnd) := by
           unfold handlePost
           rw [hv]
         rw [hh]
         try rw [hcr]
         rfl)
  · rw [runChat_llmCalls message hist model retrieval genErr chunks midErr s0 s1 sc sEnd,
      List.map_cons, List.map_nil,
      lastUserContent_buildMessages (retrievedOf retrieval) hist (jsTake (jsTrim message) 4000)]

/-- Counterexample to C4 as stated: `model: "constructor"` is not in the
static allow-list, so the claim demands an HTTP 400 before any SSE frame
— but `AVAILABLE_MODELS['constructor']` finds the inherited, truthy
`Object.prototype.constructor`, so the source's guard
`!AVAILABLE_MODELS[model]` is not taken: validation succeeds, no 400 is
sent, and the handler opens the SSE stream and writes frames. -/
theorem c4_counterexample :
    postChatValidate [(("message"), JVal.jstr ("hello")), (("model"), JVal.jstr ("constructor"))]
      = Except.ok (("hello"), [], ("constructor"))
    ∧ claimRejects [(("message"), JVal.jstr ("hello")), (("model"), JVal.jstr ("constructor"))]
      = true
    ∧ (handlePost [(("message"), JVal.jstr ("hello")), (("model"), JVal.jstr ("constructor"))]
        (Except.ok []) none [] none [] [] [] []).isReject400 = false
    ∧ (outcomeActs (handlePost
        [(("message"), JVal.jstr ("hello")), (("model"), JVal.jstr ("constructor"))]
        (Except.ok []) none [] none [] [] [] [])).isEmpty = false := by
  exact ⟨rfl, by decide, rfl, rfl⟩

/-- C5: the completion call receives exactly one messages array, which
is, in this fixed order: one system message (whose prompt embeds the
concatenated retrieved chunks when at least one was retrieved and states
that no context is available when none were), then at most the last 10
entries of `conversationHistory` (a suffix — older entries are silently
dropped), then the sanitized user message last. -/
theorem c5_prompt_assembly (message : String) (hist : List JVal) (model : String)
    (retrieval : Except String (List String)) (genErr : Option String)
    (chunks : List (Option String)) (midErr : Option String)
    (s0 s1 : List ExtEv) (sc : List (List ExtEv)) (sEnd : List ExtEv)
    (docs : List String) (san : String) :
    llmCallsOf (runChat message hist model retrieval genErr chunks midErr s0 s1 sc sEnd)
      = [(model, buildMessages (retrievedOf retrieval) hist (jsTake (jsTrim message) 4000))]
    ∧ buildMessages docs hist san
      = roleContent ("system") (SYSTEM_PROMPT docs)
        :: (hist.drop (hist.length - 10) ++ [roleContent ("user") san])
    ∧ (hist.drop (hist.length - 10)).length ≤ 10
    ∧ hist.drop (hist.length - 10) <:+ hist
    ∧ SYSTEM_PROMPT docs
      = "You are a helpful AI Assistant. "
        ++ (if docs.length > 0 then
              "Answer the user query based on the following context from PDF documents:\n"
                ++ String.intercalate ("\n\n") docs
            else ("No specific context available from PDF documents."))
        ++ "\n\n    Instructions:\n    - If the context doesn\x27t contain relevant information, clearly state that\n    - Be concise and helpful\n    "
    ∧ lastUserContent (buildMessages docs hist san) = some san := by
  refine ⟨runChat_llmCalls message hist model retrieval genErr chunks midErr s0 s1 sc sEnd,
    rfl, ?_, List.drop_suffix _ _, rfl, lastUserContent_buildMessages docs hist san⟩
  rw [List.length_drop]
  omega

/-- C6: retrieval failure is fail-open — a run whose retrieval call threw
is indistinguishable from a run that retrieved zero chunks, so no
distinct error surfaces to the caller; a `docs` event is written iff at
least one chunk was retrieved; every `docs` write precedes the generation
call; and with zero chunks the system prompt states that no context is
available. -/
theorem c6_fail_open (message : String) (hist : List JVal) (model : String)
    (retrieval : Except String (List String)) (genErr : Option String)
    (chunks : List (Option String)) (midErr : Option String)
    (s0 s1 : List ExtEv) (sc : List (List ExtEv)) (sEnd : List ExtEv)
    (e : String) (docsList : List String) :
    runChat message hist model (Except.error e) genErr chunks midErr s0 s1 sc sEnd
      = runChat message hist model (Except.ok []) genErr chunks midErr s0 s1 sc sEnd
    ∧ (callTrace (runChat message hist model (Except.ok docsList) genErr chunks midErr s0 s1 sc sEnd)).filter
        isDocsEv
      = (if docsList.isEmpty then [] else [ChatEv.docs docsList])
    ∧ ((runChat message hist model retrieval genErr chunks midErr s0 s1 sc sEnd).acts.dropWhile
        (fun a => !a.isLlm)).all (fun a => !a.isDocsWrite) = true
    ∧ SYSTEM_PROMPT []
      = "You are a helpful AI Assistant. "
        ++ ("No specific context available from PDF documents.")
        ++ "\n\n    Instructions:\n    - If the context doesn\x27t contain relevant information, clearly state that\n    - Be concise and helpful\n    " := by
  refine ⟨rfl, ?_,
    runChat_docs_before_llm message hist model retrieval genErr chunks midErr s0 s1 sc sEnd,
    rfl⟩
  rw [runChat_docs_filter message hist model (Except.ok docsList) genErr chunks midErr s0 s1 sc sEnd]
  cases docsList with
  | nil => rfl
  | cons d ds =>
    rw [if_pos (by simp [retrievedOf]), if_neg (by simp)]
    rfl

/-- With a pre-stream generation failure and no external events, the
serialized trace is the optional `docs` frame, `model_info`, and the one
generic error. -/
theorem runChat_genErr_trace (message : String) (hist : List JVal) (model : String)
    (docsList : List String) (e1 : String) (chunks : List (Option String))
    (midErr : Option String) :
    sentTrace (runChat message hist model (Except.ok docsList) (some e1) chunks midErr [] [] [] [])
      = (if docsList.length > 0 then [ChatEv.docs docsList] else [])
        ++ [ChatEv.modelInfo model, ChatEv.error genericErrorMessage] := by
  by_cases hc : docsList.length > 0
  · rw [if_pos hc]
    simp only [runChat, retrievedOf]
    rw [if_pos hc]
    rfl
  · rw [if_neg hc]
    simp only [runChat, retrievedOf]
    rw [if_neg hc]
    rfl

/-- C7 (amended): on `POST /chat` the claim holds — every `error` payload
ever written is one of the two fixed strings (timeout or the generic
failure message), the handler state is independent of the exception text
of both a pre-stream and a mid-stream generation failure, and a creation
failure with the client connected yields exactly the generic terminal
error.  The legacy `GET /chat` catch block does NOT satisfy it: see the
counterexample. -/
theorem c7_no_error_leak_post (message : String) (hist : List JVal) (model : String)
    (retrieval : Except String (List String)) (genErr : Option String)
    (chunks : List (Option String)) (midErr : Option String)
    (s0 s1 : List ExtEv) (sc : List (List ExtEv)) (sEnd : List ExtEv)
    (e1 e2 : String) (docsList : List String) :
    ((writes (runChat message hist model retrieval genErr chunks midErr s0 s1 sc sEnd)).all
        (fun r => errPayloadFixed r.ev)) = true
    ∧ runChat message hist model retrieval (some e1) chunks midErr s0 s1 sc sEnd
      = runChat message hist model retrieval (some e2) chunks midErr s0 s1 sc sEnd
    ∧ runChat message hist model retrieval none chunks (some e1) s0 s1 sc sEnd
      = runChat message hist model retrieval none chunks (some e2) s0 s1 sc sEnd
    ∧ sentTrace (runChat message hist model (Except.ok docsList) (some e1) chunks midErr [] [] [] [])
      = (if docsList.isEmpty then [] else [ChatEv.docs docsList])
        ++ [ChatEv.modelInfo model, ChatEv.error genericErrorMessage] := by
  refine ⟨?_, rfl, rfl, ?_⟩
  · rw [List.all_eq_true]
    exact runChat_err_payloads message hist model retrieval genErr chunks midErr s0 s1 sc sEnd
  · rw [runChat_genErr_trace message hist model docsList e1 chunks midErr]
    cases docsList with
    | nil => rfl
    | cons d ds => rw [if_pos (by simp), if_neg (by simp)]

/-- Counterexample to C7 as stated: the legacy `GET /chat` catch block
sends `error.message || 'Unknown error'` — the raw exception text of a
generation failure, and likewise of a retrieval failure (unguarded on
this route), goes to the client verbatim, and it is not one of the fixed
payloads. -/
theorem c7_counterexample :
    sentTrace (runChatGet ("q") (Except.ok []) (some ("boom")) [] none [] [] [] [])
      = [ChatEv.error ("boom")]
    ∧ sentTrace (runChatGet ("q") (Except.error ("upstream provider detail")) none [] none [] [] [] [])
      = [ChatEv.error ("upstream provider detail")]
    ∧ errPayloadFixed (ChatEv.error ("boom")) = false := by
  exact ⟨rfl, rfl, by decide⟩

/-- C8 (amended): with window 1000 and overlap 200, chunk `i` is the
1000-character window starting at offset `800·i` (so document order is
preserved), the chunk count is `max 1 (ceil((L − 200) / 800))` for
nonempty text (and 0 for empty text) — not the claim's unguarded
`ceil((L − O) / (W − O))`, which fails for `0 < L ≤ 200` — and
concatenating the chunks after dropping each successor's 200-character
overlap reconstructs the original text exactly. -/
theorem c8_splitter_roundtrip (text : List Char) :
    splitIntoChunks 1000 200 text
      = (List.range (specChunkCount text.length)).map (fun i => (text.drop (i * 800)).take 1000)
    ∧ (splitIntoChunks 1000 200 text).length = specChunkCount text.length
    ∧ glueChunks 200 (splitIntoChunks 1000 200 text) = text := by
  refine ⟨splitIntoChunks_eq_range text, ?_, glueChunks_split text⟩
  rw [splitIntoChunks_eq_range text, List.length_map, List.length_range]

/-- Counterexample to C8's count formula as stated: a 100-character text
splits into one chunk, but `ceil((L − O) / (W − O)) = ceil(-100 / 800) = 0`. -/
theorem c8_counterexample :
    (splitIntoChunks 1000 200 (List.replicate 100 ('a'))).length = 1
    ∧ claimedChunkCount 1000 200 100 = 0
    ∧ specChunkCount 100 = 1 := by
  refine ⟨?_, by decide, by decide⟩
  rw [splitIntoChunks]
  norm_num

/-- C9: any failure of the load, split or store step propagates out of the
worker's processor as the job's failure (the same error, re-thrown after
being caught once and logged with the job id and file path in the last
log line); each external step runs at most once, later steps are skipped
after a failure, the processor retries nothing; and the worker runs with
a concurrency ceiling of 5. -/
theorem c9_worker_failure_propagation (jobId filePath : String)
    (loadRes splitRes : Except String (List String)) (storeRes : Except String Unit) :
    (processFileJob jobId filePath loadRes splitRes storeRes).result
      = loadRes.bind (fun _ => splitRes.bind (fun _ => storeRes))
    ∧ (processFileJob jobId filePath loadRes splitRes storeRes).calls
      = (match loadRes with
         | .error _ => [WCall.load]
         | .ok _ =>
           match splitRes with
           | .error _ => [WCall.load, WCall.split]
           | .ok _ => [WCall.load, WCall.split, WCall.addDocuments])
    ∧ (match (processFileJob jobId filePath loadRes splitRes storeRes).result with
       | .error e =>
         (processFileJob jobId filePath loadRes splitRes storeRes).log.getLast?
           = some ("Failed to process job " ++ jobId ++ " for file " ++ filePath ++ ": " ++ e)
       | .ok _ =>
         (processFileJob jobId filePath loadRes splitRes storeRes).result = Except.ok ())
    ∧ workerConcurrency = 5 := by
  rcases loadRes with el | pl <;> rcases splitRes with es | cs <;> rcases storeRes with est | u <;>
    exact ⟨rfl, rfl, rfl, rfl⟩

/-- C10: a body whose `conversationHistory` is any array of at most 20
entries — the entries themselves of arbitrary shape, never inspected —
passes validation with the entry list returned unchanged, and the last
up-to-10 entries are placed verbatim, structure untouched, between the
system message and the user message of the array sent to the completion
call. -/
theorem c10_history_forwarded_verbatim (msg : String) (entries : List JVal)
    (retrieval : Except String (List String)) (genErr : Option String)
    (chunks : List (Option String)) (midErr : Option String)
    (s0 s1 : List ExtEv) (sc : List (List ExtEv)) (sEnd : List ExtEv)
    (hblank : jsTrim msg ≠ "") (hlen : msg.length ≤ 4000) (hcount : entries.length ≤ 20) :
    postChatValidate [(("message"), JVal.jstr msg), (("conversationHistory"), JVal.jarr entries)]
      = Except.ok (msg, entries, DEFAULT_MODEL)
    ∧ llmCallsOf (runChat msg entries DEFAULT_MODEL retrieval genErr chunks midErr s0 s1 sc sEnd)
      = [(DEFAULT_MODEL,
          roleContent ("system") (SYSTEM_PROMPT (retrievedOf retrieval))
            :: (entries.drop (entries.length - 10)
                ++ [roleContent ("user") (jsTake (jsTrim msg) 4000)]))] := by
  constructor
  · have hform : postChatValidate
        [(("message"), JVal.jstr msg), (("conversationHistory"), JVal.jarr entries)]
        = (if (!(jtruthy (JVal.jstr msg)) || !(jisString (JVal.jstr msg))
              || (jsTrim (jstrVal (JVal.jstr msg))).length == 0) then
            Except.error ("Message is required and must be a non-empty string")
          else if (jstrVal (JVal.jstr msg)).length > 4000 then
            Except.error ("Message too long. Maximum 4000 characters allowed.")
          else if (!(jisArray (JVal.jarr entries))
              || (jarrVal (JVal.jarr entries)).length > 20) then
            Except.error ("Invalid conversation history. Maximum 20 messages allowed.")
          else Except.ok (msg, entries, DEFAULT_MODEL)) := rfl
    have hne : msg ≠ "" := by
      intro h
      apply hblank
      rw [h]
      rfl
    have h1 : (!(jtruthy (JVal.jstr msg)) || !(jisString (JVal.jstr msg))
        || (jsTrim (jstrVal (JVal.jstr msg))).length == 0) = false := by
      simp only [jtruthy, jisString, jstrVal, Bool.not_true, Bool.or_false,
        string_len_zero_beq]
      simp [bne, hne, hblank]
    have h3 : (!(jisArray (JVal.jarr entries))
        || (jarrVal (JVal.jarr entries)).length > 20) = false := by
      simp only [jisArray, jarrVal, Bool.not_true, Bool.false_or,
        decide_eq_false_iff_not]
      omega
    rw [hform, if_neg (by rw [h1]; exact Bool.false_ne_true),
      if_neg (by simp only [decide_eq_true_eq, jstrVal]; omega),
      if_neg (by rw [h3]; exact Bool.false_ne_true)]
  · rw [runChat_llmCalls msg entries DEFAULT_MODEL retrieval genErr chunks midErr s0 s1 sc sEnd]
    rfl

/-- Witness for C10: a blank-free short message and four history entries
of assorted shapes (a number, an object without role/content, null, a
nested array) pass validation and are forwarded unchanged. -/
theorem c10_witness :
    postChatValidate [(("message"), JVal.jstr ("What does the report say?")),
        (("conversationHistory"),
         JVal.jarr [JVal.jnum 7, JVal.jobj [(("weird"), JVal.jbool true)], JVal.jnull,
           JVal.jarr []])]
      = Except.ok (("What does the report say?"),
          [JVal.jnum 7, JVal.jobj [(("weird"), JVal.jbool true)], JVal.jnull, JVal.jarr []],
          DEFAULT_MODEL)
    ∧ llmCallsOf (runChat ("What does the report say?")
        [JVal.jnum 7, JVal.jobj [(("weird"), JVal.jbool true)], JVal.jnull, JVal.jarr []]
        DEFAULT_MODEL (Except.ok [("ctx")]) none [] none [] [] [] [])
      = [(DEFAULT_MODEL,
          roleContent ("system") (SYSTEM_PROMPT (retrievedOf (Except.ok [("ctx")])))
            :: ([JVal.jnum 7, JVal.jobj [(("weird"), JVal.jbool true)], JVal.jnull,
                  JVal.jarr []].drop
                  ([JVal.jnum 7, JVal.jobj [(("weird"), JVal.jbool true)], JVal.jnull,
                     JVal.jarr []].length - 10)
                ++ [roleContent ("user") (jsTake (jsTrim ("What does the report say?")) 4000)]))] :=
  c10_history_forwarded_verbatim ("What does the report say?")
    [JVal.jnum 7, JVal.jobj [(("weird"), JVal.jbool true)], JVal.jnull, JVal.jarr []]
    (Except.ok [("ctx")]) none [] none [] [] [] []
    (by decide) (by decide) (by decide)
